import Mathlib

/-!
# Verification of the recipe/meal nutrition core

Shallow embedding of the nutrition core of this repository:

* `src/nutrition/scripts/measure_converter.py` — unit catalog, portion
  matching and gram-weight derivation;
* `src/nutrition/scripts/calculate_recipe_nutrition.py` — per-ingredient
  nutrient scaling with energy de-duplication, aggregation, per-serving
  normalization, macros, energy-completeness validation;
* `src/nutrition/scripts/calculate_meal_nutrition.py` — scaling and summing
  per-serving recipe nutrition into meal nutrition.

Conventions of the embedding:

* Python floats are modelled as exact rationals (`ℚ`); decimal literals such
  as `28.3495` denote the exact decimal value.
* Python dicts (insertion-ordered, unique keys) are modelled as association
  lists (`List (String × ℚ)`) with `dget`/`dset` mirroring `dict.get` /
  item assignment.
* Python exceptions are modelled with `Except` (or, for the record-updating
  entry points, a `record × Option errorMessage` pair mirroring the in-place
  mutation discipline of the scripts).
* Python iterates `set(...)` objects with unspecified order when scoring
  portion descriptions; `score_portion_match` therefore takes the alias list
  — one possible iteration order — as an argument.  Order-insensitive
  callers pass the insertion-order list of `_get_unit_aliases`;
  order-sensitive statements quantify over every permutation of that list.
* Error-message strings are reproduced up to the single-quote characters of
  the Python f-strings (quotes are elided, the quoted payloads are kept).
-/

/-! ## String primitives

Python `str.lower`, `str.strip`, `in` (substring), `startswith`, and the two
regular expressions `^\d+\s*` (used by `_normalize_portion_description`) and
`^(\d+(?:\.\d+)?)` (used by `_extract_base_amount`) are modelled over
`List Char`. -/

/-- `startsWithL hay pre` : `pre` is a prefix of `hay` (Python `startswith`). -/
def startsWithL : List Char → List Char → Bool
  | _, [] => true
  | [], _ :: _ => false
  | a :: as, b :: bs => a == b && startsWithL as bs

/-- `containsSubL hay needle` : `needle` occurs contiguously in `hay`
(Python `needle in hay`). -/
def containsSubL : List Char → List Char → Bool
  | [], needle => startsWithL [] needle
  | a :: t, needle => startsWithL (a :: t) needle || containsSubL t needle

/-- Python `pre in s` on strings. -/
def sContains (s needle : String) : Bool :=
  containsSubL s.data needle.data

/-- Python `s.startswith pre`. -/
def sStarts (s pre : String) : Bool :=
  startsWithL s.data pre.data

/-- Python `str.lower()` (ASCII, which covers all strings of this code base). -/
def sLower (s : String) : String :=
  String.mk (s.data.map Char.toLower)

/-- Python `str.strip()`: drop ASCII whitespace from both ends. -/
def sStrip (s : String) : String :=
  String.mk (((s.data.dropWhile Char.isWhitespace).reverse.dropWhile Char.isWhitespace).reverse)

/-- Value of a digit character. -/
def digitVal (c : Char) : Nat :=
  c.toNat - 48

/-- Natural number denoted by a digit string (most significant first). -/
def digitsToNat (cs : List Char) : Nat :=
  cs.foldl (fun n c => 10 * n + digitVal c) 0

/-- The regex `^(\d+(?:\.\d+)?)` of `_extract_base_amount`: parse a leading
integer or decimal numeral, returning its exact rational value. -/
def parseLeadingNumber (s : String) : Option ℚ :=
  let cs := s.data
  let intPart := cs.takeWhile Char.isDigit
  if intPart = [] then none
  else
    let rest := cs.drop intPart.length
    match rest with
    | '.' :: r2 =>
      let fracPart := r2.takeWhile Char.isDigit
      if fracPart = [] then some (digitsToNat intPart)
      else some ((digitsToNat intPart : ℚ) + (digitsToNat fracPart : ℚ) / (10 : ℚ) ^ fracPart.length)
    | _ => some (digitsToNat intPart)

/-- The regex substitution `re.sub(r'^\d+\s*', '', ·)`: if the string starts
with a digit, drop the leading digits and any whitespace after them. -/
def stripLeadingNumber (cs : List Char) : List Char :=
  match cs with
  | [] => []
  | c :: _ =>
    if c.isDigit then (cs.dropWhile Char.isDigit).dropWhile Char.isWhitespace
    else cs

/-! ## `measure_converter.py` : unit catalog -/

/-- `MeasureUnit` enumeration (`measure_converter.MeasureUnit`). -/
inductive MeasureUnit where
  | Cup | Tbsp | Tsp | Fl_Oz | Pint | Quart | Gallon | Ml | Liter
  | Oz | Lb | Gram | Kg
  | Piece | Whole | Slice | Clove | Head | Stalk | Bunch
  deriving DecidableEq

/-- The `value` string of each enum member. -/
def MeasureUnit.value : MeasureUnit → String
  | .Cup => "Cup"
  | .Tbsp => "Tbsp"
  | .Tsp => "Tsp"
  | .Fl_Oz => "Fl Oz"
  | .Pint => "Pint"
  | .Quart => "Quart"
  | .Gallon => "Gallon"
  | .Ml => "Ml"
  | .Liter => "Liter"
  | .Oz => "Oz"
  | .Lb => "Lb"
  | .Gram => "Gram"
  | .Kg => "Kg"
  | .Piece => "Piece"
  | .Whole => "Whole"
  | .Slice => "Slice"
  | .Clove => "Clove"
  | .Head => "Head"
  | .Stalk => "Stalk"
  | .Bunch => "Bunch"

/-- Declaration order of the enum members (`for measure_unit in MeasureUnit`). -/
def allMeasureUnits : List MeasureUnit :=
  [.Cup, .Tbsp, .Tsp, .Fl_Oz, .Pint, .Quart, .Gallon, .Ml, .Liter,
   .Oz, .Lb, .Gram, .Kg,
   .Piece, .Whole, .Slice, .Clove, .Head, .Stalk, .Bunch]

/-- `_get_unit_aliases`, with the insertion order of the source's `unit_map`
lists kept (the Python code wraps them in `set(...)`, whose iteration order is
unspecified; every claim-relevant use is order-insensitive except the
description scoring, see `score_portion_match`). -/
def get_unit_aliases : MeasureUnit → List String
  | .Cup => ["cup", "cups", "c"]
  | .Tbsp => ["tablespoon", "tablespoons", "tbsp", "tbs", "T"]
  | .Tsp => ["teaspoon", "teaspoons", "tsp", "t"]
  | .Fl_Oz => ["fluid ounce", "fl oz", "floz", "fl. oz.", "fluid ounces"]
  | .Pint => ["pint", "pints", "pt"]
  | .Quart => ["quart", "quarts", "qt"]
  | .Gallon => ["gallon", "gallons", "gal"]
  | .Ml => ["milliliter", "milliliters", "ml", "mL"]
  | .Liter => ["liter", "liters", "litres", "l", "L"]
  | .Oz => ["ounce", "ounces", "oz"]
  | .Lb => ["pound", "pounds", "lb", "lbs"]
  | .Gram => ["gram", "grams", "g"]
  | .Kg => ["kilogram", "kilograms", "kg"]
  | .Piece => ["piece", "pieces", "pc", "pcs"]
  | .Whole => ["whole", "item", "items"]
  | .Slice => ["slice", "slices"]
  | .Clove => ["clove", "cloves"]
  | .Head => ["head", "heads"]
  | .Stalk => ["stalk", "stalks"]
  | .Bunch => ["bunch", "bunches"]

/-- The weight units singled out by `find_food_portion`. -/
def MeasureUnit.isWeightUnit (u : MeasureUnit) : Bool :=
  u = .Oz ∨ u = .Lb ∨ u = .Gram ∨ u = .Kg

/-! ## `measure_converter.py` : portions and matching -/

/-- `FoodPortion` record. `.get("modifier", "")` / `.get("portionDescription", "")`
default to `""`, `.get("gramWeight", 0)` defaults to `0`; `amount := none`
models an absent or `null` `amount` field (`portion.get("amount")`). -/
structure FoodPortion where
  modifier : String := ""
  portionDescription : String := ""
  gramWeight : ℚ := 0
  amount : Option ℚ := none
  deriving DecidableEq

/-- `_normalize_portion_description`. -/
def normalize_portion_description (desc : String) : String :=
  if desc = "" then ""
  else sStrip (String.mk (stripLeadingNumber (sLower desc).data))

/-- `_normalize_modifier`. -/
def normalize_modifier (modifier : String) : String :=
  if modifier = "" then "" else sStrip (sLower modifier)

/-- `_score_portion_match`, parameterized by the iteration order of the alias
set: `unit_aliases` is one possible order of the set the source iterates (a
permutation of the `_get_unit_aliases` list).  The description branch returns
on the first alias of `unit_aliases` contained in the normalized description;
the 100 and 0 outcomes do not depend on the order. -/
def score_portion_match (portion : FoodPortion) (unit_aliases : List String) : Nat :=
  let modifierScore : Option Nat :=
    if portion.modifier = "" then none
    else
      let nm := normalize_modifier portion.modifier
      if unit_aliases.contains nm then some 100
      else if unit_aliases.any (fun a => sContains nm a) then some 100
      else none
  match modifierScore with
  | some s => s
  | none =>
    if portion.portionDescription = "" then 0
    else
      let nd := normalize_portion_description portion.portionDescription
      match unit_aliases.find? (fun a => sContains nd a) with
      | some a => if sStarts nd a then 80 else 50
      | none => 0

/-- `_extract_base_amount`.  Errors carry the (quote-elided) message text. -/
def extract_base_amount (portion : FoodPortion) : Except String ℚ :=
  let desc := portion.portionDescription
  let fromDesc : Option ℚ :=
    if desc ≠ "" ∧ desc ≠ "(none)" then parseLeadingNumber desc else none
  match fromDesc with
  | some v => .ok v
  | none =>
    match portion.amount with
    | some a =>
      if a > 0 then .ok a
      else .error "Cannot extract base amount from foodPortion. portionDescription has no leading numeric amount and amount field is not a positive number."
    | none => .error "Cannot extract base amount from foodPortion. portionDescription has no leading numeric amount and amount field is missing."

/-- Python `sep.join(xs)`. -/
def join_sep (sep : String) : List String → String
  | [] => ""
  | [x] => x
  | x :: y :: xs => x ++ sep ++ join_sep sep (y :: xs)

/-- `_format_available_portions`. -/
def format_available_portions (food_portions : List FoodPortion) : String :=
  let available := food_portions.filterMap (fun portion =>
    if portion.gramWeight > 0 then
      let info :=
        (if portion.modifier ≠ "" then ["modifier=" ++ portion.modifier] else []) ++
        (if portion.portionDescription ≠ "" then ["description=" ++ portion.portionDescription] else [])
      if info ≠ [] then some ("  - " ++ join_sep ", " info) else none
    else none)
  if available ≠ [] then join_sep "\n" available
  else "  (none with valid gramWeight)"

/-- The best-match loop of `find_food_portion`: state is
`(best_match, best_score)`, a portion replaces the current best only when its
score is strictly greater (`score > best_score`), so ties keep the
first-encountered portion; portions with `gramWeight ≤ 0` are skipped. -/
def best_loop (unit_aliases : List String) :
    List FoodPortion → Option FoodPortion → Nat → Option FoodPortion × Nat
  | [], best, bs => (best, bs)
  | p :: rest, best, bs =>
    if p.gramWeight ≤ 0 then best_loop unit_aliases rest best bs
    else
      let s := score_portion_match p unit_aliases
      if bs < s then best_loop unit_aliases rest (some p) s
      else best_loop unit_aliases rest best bs

/-- Errors of `find_food_portion`: `MeasureMatchError`, `ValueError`, and the
`ZeroDivisionError` Python raises on `quantity / 0.0`. -/
inductive MCError where
  | measureMatch (msg : String)
  | valueError (msg : String)
  | zeroDivision
  deriving DecidableEq

/-- The `MeasureMatchError` message of `find_food_portion` when no portion
scores above 0 (assembled as the concatenation of its f-string pieces). -/
def no_match_message (quantity : ℚ) (unit : MeasureUnit) (food_portions : List FoodPortion) : String :=
  String.join
    ["Could not find matching foodPortion for ", toString quantity, " ", unit.value,
     ". No foodPortion found with matching modifier or description. ",
     "This is a hard error - no fallback assumptions are made. ",
     "Please use a weight unit (Gram, Oz, Lb, Kg) or ensure the ingredient has a matching portion. ",
     "\nAvailable foodPortions:\n", format_available_portions food_portions,
     "\n\nTo add volume information, run: python3 add_volume_to_ingredient.py <fdc_id> <amount> <unit> <grams>",
     "\nExample: python3 add_volume_to_ingredient.py <fdc_id> 1.0 ", unit.value, " <grams_per_unit>"]

/-- The `MeasureMatchError` message `find_food_portion` re-raises when the
matched portion has no extractable base amount. -/
def rematch_message (unit : MeasureUnit) (best_match : FoodPortion) (orig : String) : String :=
  "Found matching foodPortion by " ++ unit.value ++ " unit, but cannot determine base amount. " ++
  "The portion matched by modifier/description but lacks valid amount information. " ++
  "\nMatched portion details: " ++
  (if best_match.modifier ≠ "" then "modifier=" ++ best_match.modifier else "modifier missing") ++ ", " ++
  (if best_match.portionDescription ≠ "" then "description=" ++ best_match.portionDescription else "portionDescription missing") ++ ", " ++
  (match best_match.amount with
   | some a => "amount=" ++ toString a
   | none => "amount missing") ++
  ", gramWeight=" ++ toString best_match.gramWeight ++ "g. " ++
  "\nOriginal error: " ++ orig

/-- `find_food_portion`, the entry point of `measure_converter.py`. -/
def find_food_portion (quantity : ℚ) (unit : MeasureUnit) (food_portions : List FoodPortion) :
    Except MCError (FoodPortion × ℚ) :=
  if food_portions = [] then
    .error (.measureMatch "No foodPortions available in ingredient data")
  else if quantity ≤ 0 then
    .error (.valueError ("Quantity must be greater than zero, got " ++ toString quantity))
  else if unit.isWeightUnit then
    let gram_weight : ℚ :=
      if unit = MeasureUnit.Oz then quantity * 28.3495
      else if unit = MeasureUnit.Lb then quantity * 453.592
      else if unit = MeasureUnit.Gram then quantity
      else quantity * 1000
    let dummy_portion : FoodPortion :=
      { modifier := "", portionDescription := toString quantity ++ " " ++ unit.value,
        gramWeight := gram_weight, amount := none }
    .ok (dummy_portion, gram_weight)
  else
    let unit_aliases := get_unit_aliases unit
    match best_loop unit_aliases food_portions none 0 with
    | (none, _) => .error (.measureMatch (no_match_message quantity unit food_portions))
    | (some best_match, best_score) =>
      if best_score = 0 then
        .error (.measureMatch (no_match_message quantity unit food_portions))
      else
        match extract_base_amount best_match with
        | .error e => .error (.measureMatch (rematch_message unit best_match e))
        | .ok base_amount =>
          if base_amount = 0 then .error .zeroDivision
          else .ok (best_match, quantity / base_amount * best_match.gramWeight)

/-! ## `calculate_recipe_nutrition.py` : data model -/

/-- A `NutrientSet`: a Python dict `str -> float` (insertion-ordered,
unique keys), modelled as an association list. -/
abbrev NutrientSet := List (String × ℚ)

/-- Python `d.get(k, dflt)`. -/
def dget (d : NutrientSet) (k : String) (dflt : ℚ) : ℚ :=
  match d.find? (fun p => p.1 == k) with
  | some p => p.2
  | none => dflt

/-- Python `d[k] = v`: overwrite in place if the key exists, else append. -/
def dset (d : NutrientSet) (k : String) (v : ℚ) : NutrientSet :=
  if d.any (fun p => p.1 == k) then
    d.map (fun p => if p.1 == k then (k, v) else p)
  else d ++ [(k, v)]

/-- Keys of a `NutrientSet`. -/
def dkeys (d : NutrientSet) : List String :=
  d.map Prod.fst

/-- One element of `foodNutrients`, flattened:
`{"nutrient": {"name": …, "unitName": …}, "amount": …}`.
`name`/`unitName` default to `""` for absent fields; `amount := none` models a
JSON `null` (skipped by the code), an absent `amount` key behaves as `some 0`
(`food_nutrient.get("amount", 0.0)`). -/
structure FoodNutrient where
  name : String := ""
  unitName : String := ""
  amount : Option ℚ := some 0
  deriving DecidableEq

/-- An ingredient data file: the two fields the calculators read. -/
structure IngredientData where
  foodNutrients : List FoodNutrient := []
  foodPortions : List FoodPortion := []
  deriving DecidableEq

/-- The three kcal-unit energy spellings recognized by the special branch of
`_calculate_ingredient_nutrients`. -/
def energyNames : List String :=
  ["Energy", "Energy (Atwater General Factors)", "Energy (Atwater Specific Factors)"]

/-- Is this nutrient one of the three kcal energy entries? -/
def is_kcal_energy (fn : FoodNutrient) : Bool :=
  fn.unitName == "kcal" &&
    (fn.name == "Energy" ||
     fn.name == "Energy (Atwater General Factors)" ||
     fn.name == "Energy (Atwater Specific Factors)")

/-- Loop body of `_calculate_ingredient_nutrients`: state is
`(nutrients, energy_used, energy_value)`. -/
def calc_nutrient_step (gram_weight : ℚ)
    (st : NutrientSet × Option String × Option ℚ) (fn : FoodNutrient) :
    NutrientSet × Option String × Option ℚ :=
  let (nutrients, energy_used, energy_value) := st
  match fn.amount with
  | none => st
  | some amt =>
    if fn.name = "" then st
    else
      let scaled := gram_weight / 100 * amt
      if is_kcal_energy fn then
        if fn.name = "Energy" then
          (nutrients, some "Energy", some scaled)
        else if fn.name = "Energy (Atwater General Factors)" ∧ energy_used ≠ some "Energy" then
          (nutrients, some "Energy (Atwater General Factors)", some scaled)
        else if fn.name = "Energy (Atwater Specific Factors)" ∧ energy_used = none then
          (nutrients, some "Energy (Atwater Specific Factors)", some scaled)
        else
          (nutrients, energy_used, energy_value)
      else
        (dset nutrients (fn.name ++ " (" ++ fn.unitName ++ ")") scaled, energy_used, energy_value)

/-- `_calculate_ingredient_nutrients`: scale a per-100g nutrient list to
`gram_weight` grams, de-duplicating the energy entries. -/
def calculate_ingredient_nutrients (ingredient_data : IngredientData) (gram_weight : ℚ) :
    NutrientSet :=
  let (nutrients, _, energy_value) :=
    ingredient_data.foodNutrients.foldl (calc_nutrient_step gram_weight) ([], none, none)
  match energy_value with
  | some v => dset nutrients "Energy (kcal)" v
  | none => nutrients

/-- `_sum_nutrients` (identical in the recipe and the meal script). -/
def sum_nutrients (nutrient_lists : List NutrientSet) : NutrientSet :=
  nutrient_lists.foldl
    (fun summed nutrients =>
      nutrients.foldl (fun s p => dset s p.1 (dget s p.1 0 + p.2)) summed)
    []

/-! ## `calculate_recipe_nutrition.py` : macros -/

/-- Python `round(x, 1)` = round-half-to-even at one decimal, modelled exactly
over `ℚ`. -/
def round_half_even (x : ℚ) : ℤ :=
  if x - ⌊x⌋ < 1/2 then ⌊x⌋
  else if x - ⌊x⌋ > 1/2 then ⌊x⌋ + 1
  else if ⌊x⌋ % 2 = 0 then ⌊x⌋ else ⌊x⌋ + 1

/-- Round to one decimal place (Python `round(x, 1)`). -/
def round1 (x : ℚ) : ℚ :=
  (round_half_even (10 * x) : ℚ) / 10

/-- One macro line of the `macros` output. -/
structure MacroEntry where
  grams : ℚ
  percent : ℚ
  deriving DecidableEq

/-- The `macros` dict written back onto recipes and meals. -/
structure Macros where
  protein : MacroEntry
  carbs : MacroEntry
  fat : MacroEntry
  deriving DecidableEq

/-- `_calculate_macros` (identical in the recipe and the meal script). -/
def calculate_macros (nutrition_facts : NutrientSet) : Macros :=
  let protein_g := dget nutrition_facts "Protein (g)" 0
  let carbs_g := dget nutrition_facts "Carbohydrate, by difference (g)" 0
  let fat_g := dget nutrition_facts "Total lipid (fat) (g)" 0
  let protein_cals := protein_g * 4
  let carbs_cals := carbs_g * 4
  let fat_cals := fat_g * 9
  let total_cals := protein_cals + carbs_cals + fat_cals
  let protein_percent := if total_cals > 0 then round1 (protein_cals / total_cals * 100) else 0
  let carbs_percent := if total_cals > 0 then round1 (carbs_cals / total_cals * 100) else 0
  let fat_percent := if total_cals > 0 then round1 (fat_cals / total_cals * 100) else 0
  { protein := { grams := round1 protein_g, percent := protein_percent }
    carbs := { grams := round1 carbs_g, percent := carbs_percent }
    fat := { grams := round1 fat_g, percent := fat_percent } }

/-! ## `calculate_recipe_nutrition.py` : recipe pipeline -/

/-- An ingredient reference inside a recipe.  `fdc_id = 0` models a missing or
falsy `fdc_id` (`if not fdc_id`); `quantity`/`measure_unit`/`name` are `none`
when the key is absent. -/
structure Ingredient where
  fdc_id : Nat := 0
  quantity : Option ℚ := none
  measure_unit : Option String := none
  name : Option String := none
  deriving DecidableEq

/-- A recipe record (the fields the calculator reads and writes).
`serving_size := none` models an absent or non-numeric `serving_size`. -/
structure Recipe where
  ingredients : List Ingredient := []
  serving_size : Option ℚ := none
  nutrition_facts : Option NutrientSet := none
  macros : Option Macros := none
  deriving DecidableEq

/-- The ingredient database: FDC id → ingredient data (the directory of
`<fdc_id>.json` files read by `_load_ingredient`). -/
abbrev IngredientDB := List (Nat × IngredientData)

/-- Look an ingredient up by FDC id (`_load_ingredient`; `none` models
`FileNotFoundError`). -/
def db_lookup (db : IngredientDB) (fdc_id : Nat) : Option IngredientData :=
  match db.find? (fun p => p.1 == fdc_id) with
  | some p => some p.2
  | none => none

/-- Exact-match canonical unit parse
(the `for measure_unit in MeasureUnit` loop of `_validate_ingredient_amount`). -/
def parse_measure_unit (s : String) : Option MeasureUnit :=
  allMeasureUnits.find? (fun u => u.value == s)

/-- `_validate_ingredient_amount`. -/
def validate_ingredient_amount (ingredient : Ingredient) :
    Except String (ℚ × MeasureUnit) :=
  match ingredient.quantity with
  | none => .error "Ingredient missing quantity field"
  | some q =>
    match ingredient.measure_unit with
    | none => .error "Ingredient missing measure_unit field"
    | some us =>
      if q ≤ 0 then
        .error ("Quantity must be greater than zero, got " ++ toString q)
      else
        match parse_measure_unit us with
        | some u => .ok (q, u)
        | none => .error ("Invalid measure_unit " ++ us ++ " in ingredient.")

/-- Display name of an ingredient (`ingredient.get("name", f"FDC {fdc_id}")`). -/
def ingredient_display_name (ingredient : Ingredient) : String :=
  match ingredient.name with
  | some n => n
  | none => "FDC " ++ toString ingredient.fdc_id

/-- Per-ingredient step of `_calculate_recipe_nutrition`: validate, load, check
portions, convert to grams, scale. -/
def recipe_ingredient_nutrients (db : IngredientDB) (ingredient : Ingredient) :
    Except String NutrientSet :=
  if ingredient.fdc_id = 0 then
    .error "Ingredient missing fdc_id"
  else
    match validate_ingredient_amount ingredient with
    | .error e => .error ("Invalid ingredient amount: " ++ e)
    | .ok (quantity, unit) =>
      match db_lookup db ingredient.fdc_id with
      | none => .error ("Ingredient " ++ toString ingredient.fdc_id ++ " not found")
      | some ingredient_data =>
        if ingredient_data.foodPortions = [] then
          .error ("Ingredient " ++ toString ingredient.fdc_id ++ " has no foodPortions data")
        else
          match find_food_portion quantity unit ingredient_data.foodPortions with
          | .error (.measureMatch e) =>
            .error ("Cannot convert " ++ toString quantity ++ " " ++ unit.value ++
              " for ingredient " ++ ingredient_display_name ingredient ++
              " (FDC " ++ toString ingredient.fdc_id ++ "): " ++ e)
          | .error (.valueError e) => .error e
          | .error .zeroDivision => .error "float division by zero"
          | .ok (_, gram_weight) =>
            .ok (calculate_ingredient_nutrients ingredient_data gram_weight)

/-- `_calculate_recipe_nutrition`: total (pre-serving-split) nutrients of a
recipe, or the first error raised. -/
def calculate_recipe_nutrition (recipe : Recipe) (db : IngredientDB) :
    Except String NutrientSet :=
  if recipe.ingredients = [] then .ok []
  else
    (recipe.ingredients.foldl
      (fun acc ingredient =>
        match acc with
        | .error e => .error e
        | .ok lists =>
          match recipe_ingredient_nutrients db ingredient with
          | .error e => .error e
          | .ok ns => .ok (lists ++ [ns]))
      (.ok []) : Except String (List NutrientSet)).map sum_nutrients

/-! ## `calculate_recipe_nutrition.py` : update / validation -/

/-- Serving size actually used by `_update_recipe_nutrition`
(`recipe.get("serving_size", 1.0)`, replaced by `1.0` when non-numeric or
`≤ 0`; `none` models absent-or-non-numeric). -/
def effective_serving_size (recipe : Recipe) : ℚ :=
  match recipe.serving_size with
  | some s => if s > 0 then s else 1
  | none => 1

/-- One ingredient of the missing-energy scan of `_update_recipe_nutrition`
(lines 365–394): `none` when the ingredient has at least one kcal-unit energy
entry, `some diagnostic-line` otherwise (a failed lookup is caught and
reported in the line rather than raised). -/
def missing_energy_entry (db : IngredientDB) (ingredient : Ingredient) : Option String :=
  let nameStr := ingredient_display_name ingredient
  let amount_str :=
    (match ingredient.quantity with | some q => toString q | none => "?") ++ " " ++
    (match ingredient.measure_unit with | some u => u | none => "?")
  match db_lookup db ingredient.fdc_id with
  | none =>
    some (nameStr ++ " (FDC " ++ toString ingredient.fdc_id ++ ", " ++ amount_str ++
      ") - error checking: Ingredient file not found")
  | some ingredient_data =>
    if ingredient_data.foodNutrients.any is_kcal_energy then none
    else some (nameStr ++ " (FDC " ++ toString ingredient.fdc_id ++ ", " ++ amount_str ++ ")")

/-- The `missing_ingredients` list of `_update_recipe_nutrition`. -/
def missing_energy_ingredients (recipe : Recipe) (db : IngredientDB) : List String :=
  recipe.ingredients.filterMap (missing_energy_entry db)

/-- Energy-completeness validation of `_update_recipe_nutrition`
(lines 396–434): `some message` models the raised `ValueError`. -/
def energy_validation (recipe_name : String) (per_serving : NutrientSet)
    (missing_ingredients : List String) : Option String :=
  let energy_kcal := dget per_serving "Energy (kcal)" 0
  if energy_kcal = 0 then
    if missing_ingredients ≠ [] then
      some (String.join
        ["Recipe ", recipe_name, " is missing Energy (kcal) data. ",
         "The following ingredients do not have Energy (kcal) entries:\n  - ",
         join_sep "\n  - " missing_ingredients,
         "\nPlease use ingredients that have Energy (kcal) entries, or update the ingredient ",
         "data files to include this nutrient."])
    else
      some (String.join
        ["Recipe ", recipe_name, " has no Energy (kcal) data. ",
         "Total nutrition facts calculated, but Energy (kcal) is missing."])
  else
    let protein_g := dget per_serving "Protein (g)" 0
    let carbs_g := dget per_serving "Carbohydrate, by difference (g)" 0
    let fat_g := dget per_serving "Total lipid (fat) (g)" 0
    let calculated_cals := protein_g * 4 + carbs_g * 4 + fat_g * 9
    if calculated_cals > 0 ∧ energy_kcal < calculated_cals * 0.7 then
      if missing_ingredients ≠ [] then
        some (String.join
          ["Recipe ", recipe_name, " has incomplete Energy (kcal) data. ",
           "Energy (kcal) = ", toString energy_kcal, " cal, but calories from macros = ",
           toString calculated_cals, " cal. ",
           "The following ingredients are missing energy entries:\n  - ",
           join_sep "\n  - " missing_ingredients,
           "\nPlease use ingredients that have energy entries (Energy, Energy (Atwater General Factors), ",
           "or Energy (Atwater Specific Factors)), or update the ingredient data files to include energy data."])
      else
        some (String.join
          ["Recipe ", recipe_name, " has incomplete Energy (kcal) data. ",
           "Energy (kcal) = ", toString energy_kcal, " cal, but calories from macros = ",
           toString calculated_cals, " cal. ",
           "This suggests some ingredients are missing energy entries."])
    else none

/-- `_update_recipe_nutrition`, with the file I/O abstracted away: the result
pair is (final state of the recipe record, raised error if any).  The source
mutates the record only at lines 440–441, after every raise point, so an error
leaves the record untouched. -/
def update_recipe_nutrition (recipe_name : String) (recipe : Recipe) (db : IngredientDB) :
    Recipe × Option String :=
  match calculate_recipe_nutrition recipe db with
  | .error e => (recipe, some e)
  | .ok total_nutrition_facts =>
    let serving_size := effective_serving_size recipe
    let per_serving_nutrition :=
      total_nutrition_facts.map (fun p => (p.1, p.2 / serving_size))
    let missing_ingredients := missing_energy_ingredients recipe db
    match energy_validation recipe_name per_serving_nutrition missing_ingredients with
    | some e => (recipe, some e)
    | none =>
      let macros := calculate_macros per_serving_nutrition
      ({ recipe with nutrition_facts := some per_serving_nutrition, macros := some macros },
       none)

/-! ## `calculate_meal_nutrition.py` -/

/-- A JSON scalar as it may appear in a recipe's stored `nutrition_facts` or a
meal entry's `servings` (the meal script type-checks both with `isinstance`). -/
inductive JVal where
  | num (q : ℚ)
  | str (s : String)
  deriving DecidableEq

/-- One element of a meal's `recipes` list; `none` fields model absent keys. -/
structure MealRecipeEntry where
  recipe : Option String := none
  servings : Option JVal := none
  deriving DecidableEq

/-- A stored recipe file as the meal script reads it; `nutrition_facts := none`
models an absent or non-dict field (`if not isinstance(..., dict): return {}`). -/
structure RecipeData where
  nutrition_facts : Option (List (String × JVal)) := none
  deriving DecidableEq

/-- A meal record. -/
structure Meal where
  recipes : List MealRecipeEntry := []
  nutrition_facts : Option NutrientSet := none
  macros : Option Macros := none
  deriving DecidableEq

/-- The recipe database: recipe name → stored recipe data
(the directory of `<name>.json` files read by `_load_recipe`). -/
abbrev RecipeDB := List (String × RecipeData)

/-- `_load_recipe` (`none` models `FileNotFoundError`). -/
def recipe_lookup (rdb : RecipeDB) (name : String) : Option RecipeData :=
  match rdb.find? (fun p => p.1 == name) with
  | some p => some p.2
  | none => none

/-- `_calculate_recipe_nutrients` of the meal script: scale a stored recipe's
per-serving `nutrition_facts` by `meal_servings`, skipping non-numeric
amounts. -/
def calculate_recipe_nutrients (recipe_data : RecipeData) (meal_servings : ℚ) :
    Except String NutrientSet :=
  if meal_servings ≤ 0 then
    .error ("Servings must be greater than zero, got " ++ toString meal_servings)
  else
    match recipe_data.nutrition_facts with
    | none => .ok []
    | some facts =>
      .ok (facts.foldl
        (fun scaled p =>
          match p.2 with
          | .num a => dset scaled p.1 (a * meal_servings)
          | .str _ => scaled)
        [])

/-- Per-entry step of `_calculate_meal_nutrition`: name check, servings
validation (`recipe_entry.get("servings", 1.0)` defaults an absent field to
`1.0`), recipe lookup, scaling. -/
def meal_entry_nutrients (rdb : RecipeDB) (entry : MealRecipeEntry) :
    Except String NutrientSet :=
  let servings := entry.servings.getD (JVal.num 1)
  match entry.recipe with
  | none => .error "Recipe entry missing recipe name"
  | some rname =>
    if rname = "" then .error "Recipe entry missing recipe name"
    else
      match servings with
      | .str s =>
        .error ("Invalid servings " ++ s ++ " for recipe " ++ rname ++
          ". Servings must be a positive number.")
      | .num sv =>
        if sv ≤ 0 then
          .error ("Invalid servings " ++ toString sv ++ " for recipe " ++ rname ++
            ". Servings must be a positive number.")
        else
          match recipe_lookup rdb rname with
          | none => .error ("Recipe " ++ rname ++ " not found")
          | some recipe_data => calculate_recipe_nutrients recipe_data sv

/-- `_calculate_meal_nutrition`. -/
def calculate_meal_nutrition (meal : Meal) (rdb : RecipeDB) : Except String NutrientSet :=
  if meal.recipes = [] then .ok []
  else
    (meal.recipes.foldl
      (fun acc entry =>
        match acc with
        | .error e => .error e
        | .ok lists =>
          match meal_entry_nutrients rdb entry with
          | .error e => .error e
          | .ok ns => .ok (lists ++ [ns]))
      (.ok []) : Except String (List NutrientSet)).map sum_nutrients

/-- `_update_meal_nutrition`, file I/O abstracted away; the record is mutated
only at lines 238–239, after every raise point. -/
def update_meal_nutrition (meal : Meal) (rdb : RecipeDB) : Meal × Option String :=
  match calculate_meal_nutrition meal rdb with
  | .error e => (meal, some e)
  | .ok nutrition_facts =>
    ({ meal with
        nutrition_facts := some nutrition_facts,
        macros := some (calculate_macros nutrition_facts) },
     none)

/-! ## Concrete sample records

Small records used to instantiate the theorems below on concrete inputs:
a one-ingredient recipe, an ingredient file with a single "1 cup" portion and
no nutrient rows (`sample_db_no_nutrients`), and the same ingredient with a
single negative kcal energy row (`sample_db_negative_energy`). -/

def sample_recipe : Recipe :=
  { ingredients :=
      [{ fdc_id := 1, quantity := some 1, measure_unit := some "Cup", name := some "water" }],
    serving_size := some 1 }

def sample_cup_portion : FoodPortion :=
  { modifier := "cup", portionDescription := "1 cup", gramWeight := 240, amount := some 1 }

def sample_db_no_nutrients : IngredientDB :=
  [(1, { foodNutrients := [], foodPortions := [sample_cup_portion] })]

def sample_db_negative_energy : IngredientDB :=
  [(1, { foodNutrients := [{ name := "Energy", unitName := "kcal", amount := some (-10) }],
         foodPortions := [sample_cup_portion] })]

def sample_soup_data : RecipeData :=
  { nutrition_facts := some [("Protein (g)", JVal.num 3), ("note", JVal.str "n/a")] }

def sample_meal_rdb : RecipeDB := [("soup", sample_soup_data)]

/-! ## Lemmas: substring occurrence -/

theorem startsWithL_iff (n : List Char) : ∀ h, startsWithL h n = true ↔ ∃ t, h = n ++ t := by
  induction n with
  | nil =>
    intro h
    simp [startsWithL]
  | cons b bs ih =>
    intro h
    cases h with
    | nil => simp [startsWithL]
    | cons a as =>
      simp [startsWithL, Bool.and_eq_true, beq_iff_eq, ih as]

theorem containsSubL_iff (n : List Char) : ∀ h, containsSubL h n = true ↔ ∃ x y, h = x ++ n ++ y := by
  intro h
  induction h with
  | nil =>
    simp [containsSubL, startsWithL_iff]
  | cons a t ih =>
    simp only [containsSubL, Bool.or_eq_true, startsWithL_iff, ih]
    constructor
    · rintro (⟨y, hy⟩ | ⟨x, y, hxy⟩)
      · exact ⟨[], y, by simpa using hy⟩
      · exact ⟨a :: x, y, by simp [hxy]⟩
    · rintro ⟨x, y, hxy⟩
      cases x with
      | nil =>
        exact Or.inl ⟨y, by simpa using hxy⟩
      | cons a2 x2 =>
        simp only [List.cons_append, List.cons.injEq] at hxy
        exact Or.inr ⟨x2, y, hxy.2⟩

theorem sContains_iff (s needle : String) :
    sContains s needle = true ↔ ∃ x y, s.data = x ++ needle.data ++ y := by
  simp [sContains, containsSubL_iff]

theorem string_append_data (a b : String) : (a ++ b).data = a.data ++ b.data := rfl

theorem sContains_append_left {a needle : String} (h : sContains a needle = true) (b : String) :
    sContains (a ++ b) needle = true := by
  rw [sContains_iff] at h ⊢
  obtain ⟨x, y, hxy⟩ := h
  exact ⟨x, y ++ b.data, by simp [string_append_data, hxy]⟩

theorem sContains_append_right {b needle : String} (h : sContains b needle = true) (a : String) :
    sContains (a ++ b) needle = true := by
  rw [sContains_iff] at h ⊢
  obtain ⟨x, y, hxy⟩ := h
  exact ⟨a.data ++ x, y, by simp [string_append_data, hxy]⟩

theorem sContains_refl (a : String) : sContains a a = true := by
  rw [sContains_iff]
  exact ⟨[], [], by simp⟩

theorem sContains_trans {a b c : String} (hab : sContains a b = true)
    (hbc : sContains b c = true) : sContains a c = true := by
  rw [sContains_iff] at hab hbc ⊢
  obtain ⟨x, y, hxy⟩ := hab
  obtain ⟨u, v, huv⟩ := hbc
  exact ⟨x ++ u, v ++ y, by simp [hxy, huv]⟩

theorem sContains_join_sep {sep : String} {xs : List String} {x : String} (hx : x ∈ xs) :
    sContains (join_sep sep xs) x = true := by
  induction xs with
  | nil => cases hx
  | cons a rest ih =>
    cases rest with
    | nil =>
      rcases List.mem_singleton.mp hx with rfl
      exact sContains_refl x
    | cons b rest2 =>
      rcases List.mem_cons.mp hx with rfl | hmem
      · exact sContains_append_left (sContains_append_left (sContains_refl x) sep) _
      · exact sContains_append_right (ih hmem) _

/-! ## Lemmas: dict operations -/

theorem dkeys_dset (d : NutrientSet) (k : String) (v : ℚ) :
    dkeys (dset d k v) =
      if d.any (fun p => p.1 == k) then dkeys d else dkeys d ++ [k] := by
  unfold dset dkeys
  split
  · rw [List.map_map]
    apply List.map_congr_left
    intro p _
    by_cases hp : p.1 = k
    · simp [hp]
    · simp [hp]
  · simp

theorem mem_dkeys_iff (d : NutrientSet) (k : String) :
    k ∈ dkeys d ↔ ∃ p ∈ d, p.1 = k := by
  simp only [dkeys, List.mem_map]

theorem mem_dkeys_dset (d : NutrientSet) (k k2 : String) (v : ℚ)
    (h : k2 ∈ dkeys (dset d k v)) : k2 ∈ dkeys d ∨ k2 = k := by
  rw [dkeys_dset] at h
  revert h
  split
  · exact Or.inl
  · intro h
    rcases List.mem_append.mp h with h | h
    · exact Or.inl h
    · exact Or.inr (List.mem_singleton.mp h)

theorem self_mem_dkeys_dset (d : NutrientSet) (k : String) (v : ℚ) :
    k ∈ dkeys (dset d k v) := by
  rw [dkeys_dset]
  split
  · next hany =>
    rcases List.any_eq_true.mp hany with ⟨p, hp, he⟩
    exact (mem_dkeys_iff d k).mpr ⟨p, hp, by simpa using he⟩
  · simp

theorem dkeys_dset_nodup (d : NutrientSet) (k : String) (v : ℚ)
    (h : (dkeys d).Nodup) : (dkeys (dset d k v)).Nodup := by
  rw [dkeys_dset]
  split
  · exact h
  · next hany =>
    have hk : k ∉ dkeys d := by
      rw [mem_dkeys_iff]
      rintro ⟨p, hp, rfl⟩
      exact hany (List.any_eq_true.mpr ⟨p, hp, by simp⟩)
    simp [List.nodup_append, h, hk]

theorem mem_dset (d : NutrientSet) (k : String) (v : ℚ) (x : String × ℚ)
    (h : x ∈ dset d k v) : x ∈ d ∨ x = (k, v) := by
  unfold dset at h
  revert h
  split
  · intro h
    rcases List.mem_map.mp h with ⟨p, hp, he⟩
    by_cases hpk : p.1 = k
    · right
      simp [hpk] at he
      exact he.symm
    · left
      simp [hpk] at he
      exact he ▸ hp
  · intro h
    rcases List.mem_append.mp h with h | h
    · exact Or.inl h
    · exact Or.inr (List.mem_singleton.mp h)

theorem find?_map_hit (d : NutrientSet) (k : String) (v : ℚ)
    (h : ∃ p ∈ d, p.1 = k) :
    (d.map (fun p => if p.1 == k then (k, v) else p)).find? (fun p => p.1 == k) =
      some (k, v) := by
  induction d with
  | nil => simp at h
  | cons q rest ih =>
    rw [List.map_cons]
    by_cases hq : q.1 = k
    · rw [if_pos (by simpa using hq)]
      exact List.find?_cons_of_pos _ (by simp)
    · rw [if_neg (by simpa using hq), List.find?_cons_of_neg _ (by simpa using hq)]
      have hrest : ∃ p ∈ rest, p.1 = k := by
        rcases h with ⟨p, hp, hpk⟩
        rcases List.mem_cons.mp hp with rfl | hp2
        · exact absurd hpk hq
        · exact ⟨p, hp2, hpk⟩
      exact ih hrest

theorem find?_append_miss (d : NutrientSet) (k : String) (v : ℚ)
    (h : ∀ p ∈ d, p.1 ≠ k) :
    (d ++ [(k, v)]).find? (fun p => p.1 == k) = some (k, v) := by
  induction d with
  | nil => simp
  | cons q rest ih =>
    have hq : q.1 ≠ k := h q (List.mem_cons_self q rest)
    rw [List.cons_append, List.find?_cons_of_neg _ (by simpa using hq)]
    exact ih (fun p hp => h p (List.mem_cons_of_mem q hp))

theorem find?_dset_self (d : NutrientSet) (k : String) (v : ℚ) :
    (dset d k v).find? (fun p => p.1 == k) = some (k, v) := by
  unfold dset
  split
  · next hany =>
    have hex : ∃ p ∈ d, p.1 = k := by
      rcases List.any_eq_true.mp hany with ⟨p, hp, he⟩
      exact ⟨p, hp, by simpa using he⟩
    exact find?_map_hit d k v hex
  · next hany =>
    have hmiss : ∀ p ∈ d, p.1 ≠ k := by
      intro p hp hpk
      exact hany (List.any_eq_true.mpr ⟨p, hp, by simpa using hpk⟩)
    exact find?_append_miss d k v hmiss

theorem dget_dset_self (d : NutrientSet) (k : String) (v : ℚ) (df : ℚ) :
    dget (dset d k v) k df = v := by
  unfold dget
  rw [find?_dset_self]

/-! ## Lemmas: rounding -/

theorem abs_round_half_even_sub (y : ℚ) : |(round_half_even y : ℚ) - y| ≤ 1/2 := by
  unfold round_half_even
  have h1 : ((⌊y⌋ : ℤ) : ℚ) ≤ y := Int.floor_le y
  have h2 : y < (⌊y⌋ : ℚ) + 1 := Int.lt_floor_add_one y
  split_ifs with hf1 hf2 hf3 <;> rw [abs_le] <;> constructor <;> push_cast at * <;> linarith

theorem abs_round1_sub (x : ℚ) : |round1 x - x| ≤ 1/20 := by
  unfold round1
  have h := abs_round_half_even_sub (10 * x)
  have he : ((round_half_even (10 * x) : ℤ) : ℚ) / 10 - x =
      (((round_half_even (10 * x) : ℤ) : ℚ) - 10 * x) / 10 := by ring
  rw [he, abs_div]
  have h10 : |(10 : ℚ)| = 10 := by norm_num
  rw [h10]
  linarith

/-! ## Lemmas: the best-match loop

`best_loop_spec` characterizes the selection loop of `find_food_portion`: the
final score dominates every positive-`gramWeight` candidate's score, and the
selected portion (when the loop improved on the initial state) is the first
candidate attaining the final score — candidates strictly before it score
strictly less, candidates after it score no more. -/

theorem best_loop_spec (unit_aliases : List String) :
    ∀ (fps : List FoodPortion) (best : Option FoodPortion) (bs : Nat),
    bs ≤ (best_loop unit_aliases fps best bs).2 ∧
    (∀ q ∈ fps, 0 < q.gramWeight →
      score_portion_match q unit_aliases ≤ (best_loop unit_aliases fps best bs).2) ∧
    (best_loop unit_aliases fps best bs = (best, bs) ∨
      ∃ l1 p l2, fps = l1 ++ p :: l2 ∧
        (best_loop unit_aliases fps best bs).1 = some p ∧
        (best_loop unit_aliases fps best bs).2 = score_portion_match p unit_aliases ∧
        0 < p.gramWeight ∧ bs < score_portion_match p unit_aliases ∧
        (∀ q ∈ l1, 0 < q.gramWeight →
          score_portion_match q unit_aliases < (best_loop unit_aliases fps best bs).2) ∧
        (∀ q ∈ l2, 0 < q.gramWeight →
          score_portion_match q unit_aliases ≤ (best_loop unit_aliases fps best bs).2)) := by
  intro fps
  induction fps with
  | nil =>
    intro best bs
    refine ⟨le_refl _, ?_, Or.inl rfl⟩
    intro q hq
    cases hq
  | cons fn rest ih =>
    intro best bs
    by_cases hgw : fn.gramWeight ≤ 0
    · have hstep : best_loop unit_aliases (fn :: rest) best bs =
          best_loop unit_aliases rest best bs := by
        simp [best_loop, hgw]
      obtain ⟨iha, ihb, ihc⟩ := ih best bs
      rw [hstep]
      refine ⟨iha, ?_, ?_⟩
      · intro q hq hqgw
        rcases List.mem_cons.mp hq with rfl | hq2
        · exact absurd hqgw (not_lt.mpr hgw)
        · exact ihb q hq2 hqgw
      · rcases ihc with h | ⟨l1, p, l2, hsplit, h1, h2, h3, h4, h5, h6⟩
        · exact Or.inl h
        · refine Or.inr ⟨fn :: l1, p, l2, by rw [hsplit]; rfl, h1, h2, h3, h4, ?_, h6⟩
          intro q hq hqgw
          rcases List.mem_cons.mp hq with rfl | hq2
          · exact absurd hqgw (not_lt.mpr hgw)
          · exact h5 q hq2 hqgw
    · by_cases hbs : bs < score_portion_match fn unit_aliases
      · have hstep : best_loop unit_aliases (fn :: rest) best bs =
            best_loop unit_aliases rest (some fn) (score_portion_match fn unit_aliases) := by
          simp [best_loop, hgw, hbs]
        obtain ⟨iha, ihb, ihc⟩ := ih (some fn) (score_portion_match fn unit_aliases)
        rw [hstep]
        refine ⟨le_of_lt (lt_of_lt_of_le hbs iha), ?_, ?_⟩
        · intro q hq hqgw
          rcases List.mem_cons.mp hq with rfl | hq2
          · exact iha
          · exact ihb q hq2 hqgw
        · rcases ihc with h | ⟨l1, p, l2, hsplit, h1, h2, h3, h4, h5, h6⟩
          · refine Or.inr ⟨[], fn, rest, by simp, ?_, ?_, lt_of_not_le hgw, hbs, ?_, ?_⟩
            · rw [h]
            · rw [h]
            · intro q hq
              cases hq
            · intro q hq hqgw
              exact ihb q hq hqgw
          · refine Or.inr ⟨fn :: l1, p, l2, by rw [hsplit]; rfl, h1, h2, h3,
              lt_trans hbs h4, ?_, h6⟩
            intro q hq hqgw
            rcases List.mem_cons.mp hq with rfl | hq2
            · rw [h2]
              exact h4
            · exact h5 q hq2 hqgw
      · have hstep : best_loop unit_aliases (fn :: rest) best bs =
            best_loop unit_aliases rest best bs := by
          simp [best_loop, hgw, hbs]
        obtain ⟨iha, ihb, ihc⟩ := ih best bs
        rw [hstep]
        refine ⟨iha, ?_, ?_⟩
        · intro q hq hqgw
          rcases List.mem_cons.mp hq with rfl | hq2
          · exact le_trans (not_lt.mp hbs) iha
          · exact ihb q hq2 hqgw
        · rcases ihc with h | ⟨l1, p, l2, hsplit, h1, h2, h3, h4, h5, h6⟩
          · exact Or.inl h
          · refine Or.inr ⟨fn :: l1, p, l2, by rw [hsplit]; rfl, h1, h2, h3, h4, ?_, h6⟩
            intro q hq hqgw
            rcases List.mem_cons.mp hq with rfl | hq2
            · rw [h2]
              exact lt_of_le_of_lt (not_lt.mp hbs) h4
            · exact h5 q hq2 hqgw

/-! ## Lemmas: energy de-duplication fold -/

/-- The energy-like output keys (`Energy*(kcal)` spellings). -/
def energy_like_keys : List String :=
  ["Energy (kcal)", "Energy (Atwater General Factors) (kcal)",
   "Energy (Atwater Specific Factors) (kcal)"]

/-- A food nutrient that the special energy branch of
`_calculate_ingredient_nutrients` actually consumes: named `nm`, unit `kcal`,
with a non-null amount. -/
abbrev activeEnergyEntry (nm : String) (fn : FoodNutrient) : Prop :=
  fn.name = nm ∧ fn.unitName = "kcal" ∧ ∃ a, fn.amount = some a

theorem step_generic_or_keep (gw : ℚ) (n : NutrientSet) (eu : Option String)
    (ev : Option ℚ) (fn : FoodNutrient) :
    (calc_nutrient_step gw (n, eu, ev) fn).1 = n ∨
      ∃ a, fn.amount = some a ∧ is_kcal_energy fn = false ∧ fn.name ≠ "" ∧
        (calc_nutrient_step gw (n, eu, ev) fn).1 =
          dset n (fn.name ++ " (" ++ fn.unitName ++ ")") (gw / 100 * a) := by
  unfold calc_nutrient_step
  rcases hamt : fn.amount with _ | a
  · exact Or.inl rfl
  · by_cases hname : fn.name = ""
    · simp [hname]
    · by_cases hkcal : is_kcal_energy fn = true
      · left
        simp only [hname, if_neg, hkcal, if_pos]
        split_ifs <;> rfl
      · right
        refine ⟨a, rfl, by simpa using hkcal, hname, ?_⟩
        simp [hname, hkcal]

theorem step_not_active (gw : ℚ) (n : NutrientSet) (eu : Option String)
    (ev : Option ℚ) (fn : FoodNutrient)
    (hE : ¬ activeEnergyEntry "Energy" fn)
    (hG : ¬ activeEnergyEntry "Energy (Atwater General Factors)" fn)
    (hS : ¬ activeEnergyEntry "Energy (Atwater Specific Factors)" fn) :
    (calc_nutrient_step gw (n, eu, ev) fn).2 = (eu, ev) := by
  rcases hamt : fn.amount with _ | a
  · unfold calc_nutrient_step
    rw [hamt]
  · have hkcal : is_kcal_energy fn = false := by
      unfold is_kcal_energy
      by_cases hu : fn.unitName = "kcal"
      · by_cases h1 : fn.name = "Energy"
        · exact absurd ⟨h1, hu, a, hamt⟩ hE
        · by_cases h2 : fn.name = "Energy (Atwater General Factors)"
          · exact absurd ⟨h2, hu, a, hamt⟩ hG
          · by_cases h3 : fn.name = "Energy (Atwater Specific Factors)"
            · exact absurd ⟨h3, hu, a, hamt⟩ hS
            · simp [h1, h2, h3]
      · simp [hu]
    unfold calc_nutrient_step
    rw [hamt]
    by_cases hname : fn.name = ""
    · simp [hname]
    · simp [hname, hkcal]

theorem is_kcal_energy_unit {fn : FoodNutrient} (h : is_kcal_energy fn = true) :
    fn.unitName = "kcal" := by
  unfold is_kcal_energy at h
  rw [Bool.and_eq_true] at h
  simpa using h.1

theorem step_active_E (gw : ℚ) (n : NutrientSet) (eu : Option String)
    (ev : Option ℚ) (fn : FoodNutrient) (a : ℚ)
    (hname : fn.name = "Energy") (hu : fn.unitName = "kcal") (hamt : fn.amount = some a) :
    (calc_nutrient_step gw (n, eu, ev) fn).2 = (some "Energy", some (gw / 100 * a)) := by
  unfold calc_nutrient_step
  rw [hamt]
  have hkcal : is_kcal_energy fn = true := by
    unfold is_kcal_energy
    simp [hname, hu]
  simp [hname, hkcal]

theorem step_preserve_E (gw : ℚ) (n : NutrientSet) (ev : Option ℚ) (fn : FoodNutrient)
    (hE : ¬ activeEnergyEntry "Energy" fn) :
    (calc_nutrient_step gw (n, some "Energy", ev) fn).2 = (some "Energy", ev) := by
  rcases hamt : fn.amount with _ | a
  · unfold calc_nutrient_step
    rw [hamt]
  · unfold calc_nutrient_step
    rw [hamt]
    by_cases hname : fn.name = ""
    · simp [hname]
    · by_cases hkcal : is_kcal_energy fn = true
      · have h1 : fn.name ≠ "Energy" := fun h => hE ⟨h, is_kcal_energy_unit hkcal, a, hamt⟩
        simp [hname, hkcal, h1]
      · simp [hname, hkcal]

theorem step_set_AGF (gw : ℚ) (n : NutrientSet) (eu : Option String)
    (ev : Option ℚ) (fn : FoodNutrient) (a : ℚ)
    (hname : fn.name = "Energy (Atwater General Factors)") (hu : fn.unitName = "kcal")
    (hamt : fn.amount = some a) (heu : eu ≠ some "Energy") :
    (calc_nutrient_step gw (n, eu, ev) fn).2 =
      (some "Energy (Atwater General Factors)", some (gw / 100 * a)) := by
  unfold calc_nutrient_step
  rw [hamt]
  have hkcal : is_kcal_energy fn = true := by
    unfold is_kcal_energy
    simp [hname, hu]
  simp [hname, hkcal, heu]

theorem step_set_ASF (gw : ℚ) (n : NutrientSet) (ev : Option ℚ) (fn : FoodNutrient) (a : ℚ)
    (hname : fn.name = "Energy (Atwater Specific Factors)") (hu : fn.unitName = "kcal")
    (hamt : fn.amount = some a) :
    (calc_nutrient_step gw (n, none, ev) fn).2 =
      (some "Energy (Atwater Specific Factors)", some (gw / 100 * a)) := by
  unfold calc_nutrient_step
  rw [hamt]
  have hkcal : is_kcal_energy fn = true := by
    unfold is_kcal_energy
    simp [hname, hu]
  simp [hname, hkcal]

theorem step_preserve_some (gw : ℚ) (n : NutrientSet) (eu : Option String)
    (ev : Option ℚ) (fn : FoodNutrient)
    (hE : ¬ activeEnergyEntry "Energy" fn)
    (hG : ¬ activeEnergyEntry "Energy (Atwater General Factors)" fn)
    (heu : eu ≠ none) :
    (calc_nutrient_step gw (n, eu, ev) fn).2 = (eu, ev) := by
  rcases hamt : fn.amount with _ | a
  · unfold calc_nutrient_step
    rw [hamt]
  · unfold calc_nutrient_step
    rw [hamt]
    by_cases hname : fn.name = ""
    · simp [hname]
    · by_cases hkcal : is_kcal_energy fn = true
      · have h1 : fn.name ≠ "Energy" := fun h => hE ⟨h, is_kcal_energy_unit hkcal, a, hamt⟩
        have h2 : fn.name ≠ "Energy (Atwater General Factors)" :=
          fun h => hG ⟨h, is_kcal_energy_unit hkcal, a, hamt⟩
        simp [hname, hkcal, h1, h2, heu]
      · simp [hname, hkcal]

theorem step_snd_fst_cases (gw : ℚ) (n : NutrientSet) (eu : Option String)
    (ev : Option ℚ) (fn : FoodNutrient) :
    (calc_nutrient_step gw (n, eu, ev) fn).2.1 = eu ∨
    ((calc_nutrient_step gw (n, eu, ev) fn).2.1 = some "Energy" ∧
      activeEnergyEntry "Energy" fn) ∨
    (calc_nutrient_step gw (n, eu, ev) fn).2.1 = some "Energy (Atwater General Factors)" ∨
    (calc_nutrient_step gw (n, eu, ev) fn).2.1 = some "Energy (Atwater Specific Factors)" := by
  rcases hamt : fn.amount with _ | a
  · left
    unfold calc_nutrient_step
    rw [hamt]
  · by_cases hname : fn.name = ""
    · left
      unfold calc_nutrient_step
      rw [hamt]
      simp [hname]
    · by_cases hkcal : is_kcal_energy fn = true
      · by_cases h1 : fn.name = "Energy"
        · refine Or.inr (Or.inl ⟨?_, h1, is_kcal_energy_unit hkcal, a, hamt⟩)
          unfold calc_nutrient_step
          rw [hamt]
          simp [hname, hkcal, h1]
        · by_cases h2 : fn.name = "Energy (Atwater General Factors)" ∧ eu ≠ some "Energy"
          · refine Or.inr (Or.inr (Or.inl ?_))
            unfold calc_nutrient_step
            rw [hamt]
            simp [hname, hkcal, h1, h2]
          · by_cases h3 : fn.name = "Energy (Atwater Specific Factors)" ∧ eu = none
            · refine Or.inr (Or.inr (Or.inr ?_))
              unfold calc_nutrient_step
              rw [hamt]
              simp [hname, hkcal, h1, h2, h3]
            · left
              unfold calc_nutrient_step
              rw [hamt]
              simp [hname, hkcal, h1, h2, h3]
      · left
        unfold calc_nutrient_step
        rw [hamt]
        simp [hname, hkcal]

theorem state_eta (st : NutrientSet × Option String × Option ℚ)
    (x : Option String × Option ℚ) (h : st.2 = x) : st = (st.1, x) := by
  rw [← h]

theorem foldl_preserve_E (gw : ℚ) :
    ∀ (fns : List FoodNutrient) (n : NutrientSet) (ev : Option ℚ),
    (∀ fn ∈ fns, ¬ activeEnergyEntry "Energy" fn) →
    (List.foldl (calc_nutrient_step gw) (n, some "Energy", ev) fns).2 =
      (some "Energy", ev) := by
  intro fns
  induction fns with
  | nil =>
    intro n ev _
    rfl
  | cons fn0 rest ih =>
    intro n ev h
    rw [List.foldl_cons,
      state_eta _ _ (step_preserve_E gw n ev fn0 (h fn0 (by simp)))]
    exact ih _ _ (fun fn hfn => h fn (by simp [hfn]))

theorem foldl_preserve_some (gw : ℚ) :
    ∀ (fns : List FoodNutrient) (n : NutrientSet) (eu : Option String) (ev : Option ℚ),
    eu ≠ none →
    (∀ fn ∈ fns, ¬ activeEnergyEntry "Energy" fn ∧
      ¬ activeEnergyEntry "Energy (Atwater General Factors)" fn) →
    (List.foldl (calc_nutrient_step gw) (n, eu, ev) fns).2 = (eu, ev) := by
  intro fns
  induction fns with
  | nil =>
    intro n eu ev _ _
    rfl
  | cons fn0 rest ih =>
    intro n eu ev heu h
    rw [List.foldl_cons,
      state_eta _ _ (step_preserve_some gw n eu ev fn0 (h fn0 (by simp)).1
        (h fn0 (by simp)).2 heu)]
    exact ih _ _ _ heu (fun fn hfn => h fn (by simp [hfn]))

theorem foldl_not_active (gw : ℚ) :
    ∀ (fns : List FoodNutrient) (n : NutrientSet) (eu : Option String) (ev : Option ℚ),
    (∀ fn ∈ fns, ¬ activeEnergyEntry "Energy" fn ∧
      ¬ activeEnergyEntry "Energy (Atwater General Factors)" fn ∧
      ¬ activeEnergyEntry "Energy (Atwater Specific Factors)" fn) →
    (List.foldl (calc_nutrient_step gw) (n, eu, ev) fns).2 = (eu, ev) := by
  intro fns
  induction fns with
  | nil =>
    intro n eu ev _
    rfl
  | cons fn0 rest ih =>
    intro n eu ev h
    obtain ⟨h1, h2, h3⟩ := h fn0 (by simp)
    rw [List.foldl_cons, state_eta _ _ (step_not_active gw n eu ev fn0 h1 h2 h3)]
    exact ih _ _ _ (fun fn hfn => h fn (by simp [hfn]))

theorem foldl_energy_E (gw : ℚ) :
    ∀ (fns : List FoodNutrient) (n : NutrientSet) (eu : Option String) (ev : Option ℚ),
    (∃ fn ∈ fns, activeEnergyEntry "Energy" fn) →
    ∃ fn ∈ fns, ∃ a, fn.name = "Energy" ∧ fn.unitName = "kcal" ∧ fn.amount = some a ∧
      (List.foldl (calc_nutrient_step gw) (n, eu, ev) fns).2 =
        (some "Energy", some (gw / 100 * a)) := by
  intro fns
  induction fns with
  | nil =>
    rintro n eu ev ⟨fn, hfn, _⟩
    cases hfn
  | cons fn0 rest ih =>
    intro n eu ev hex
    rw [List.foldl_cons]
    by_cases hrest : ∃ fn ∈ rest, activeEnergyEntry "Energy" fn
    · rcases hst : calc_nutrient_step gw (n, eu, ev) fn0 with ⟨n1, eu1, ev1⟩
      obtain ⟨fn, hfn, a, ha⟩ := ih n1 eu1 ev1 hrest
      exact ⟨fn, by simp [hfn], a, ha⟩
    · have hfn0 : activeEnergyEntry "Energy" fn0 := by
        rcases hex with ⟨fn, hfn, hact⟩
        rcases List.mem_cons.mp hfn with rfl | hfn2
        · exact hact
        · exact absurd ⟨fn, hfn2, hact⟩ hrest
      obtain ⟨hname, hu, a, hamt⟩ := hfn0
      rw [state_eta _ _ (step_active_E gw n eu ev fn0 a hname hu hamt)]
      refine ⟨fn0, by simp, a, hname, hu, hamt, ?_⟩
      exact foldl_preserve_E gw rest _ _ (fun fn hfn => fun hact => hrest ⟨fn, hfn, hact⟩)

theorem foldl_energy_AGF (gw : ℚ) :
    ∀ (fns : List FoodNutrient) (n : NutrientSet) (eu : Option String) (ev : Option ℚ),
    eu ≠ some "Energy" →
    (∀ fn ∈ fns, ¬ activeEnergyEntry "Energy" fn) →
    (∃ fn ∈ fns, activeEnergyEntry "Energy (Atwater General Factors)" fn) →
    ∃ fn ∈ fns, ∃ a, fn.name = "Energy (Atwater General Factors)" ∧ fn.unitName = "kcal" ∧
      fn.amount = some a ∧
      (List.foldl (calc_nutrient_step gw) (n, eu, ev) fns).2 =
        (some "Energy (Atwater General Factors)", some (gw / 100 * a)) := by
  intro fns
  induction fns with
  | nil =>
    rintro n eu ev _ _ ⟨fn, hfn, _⟩
    cases hfn
  | cons fn0 rest ih =>
    intro n eu ev heu hnoE hex
    rw [List.foldl_cons]
    by_cases hrest : ∃ fn ∈ rest, activeEnergyEntry "Energy (Atwater General Factors)" fn
    · have heu1 : (calc_nutrient_step gw (n, eu, ev) fn0).2.1 ≠ some "Energy" := by
        rcases step_snd_fst_cases gw n eu ev fn0 with h | ⟨_, hact⟩ | h | h
        · rw [h]
          exact heu
        · exact absurd hact (hnoE fn0 (by simp))
        · rw [h]
          simp
        · rw [h]
          simp
      rcases hst : calc_nutrient_step gw (n, eu, ev) fn0 with ⟨n1, eu1, ev1⟩
      rw [hst] at heu1
      obtain ⟨fn, hfn, a, ha⟩ := ih n1 eu1 ev1 heu1
        (fun fn hfn => hnoE fn (by simp [hfn])) hrest
      exact ⟨fn, by simp [hfn], a, ha⟩
    · have hfn0 : activeEnergyEntry "Energy (Atwater General Factors)" fn0 := by
        rcases hex with ⟨fn, hfn, hact⟩
        rcases List.mem_cons.mp hfn with rfl | hfn2
        · exact hact
        · exact absurd ⟨fn, hfn2, hact⟩ hrest
      obtain ⟨hname, hu, a, hamt⟩ := hfn0
      rw [state_eta _ _ (step_set_AGF gw n eu ev fn0 a hname hu hamt heu)]
      refine ⟨fn0, by simp, a, hname, hu, hamt, ?_⟩
      exact foldl_preserve_some gw rest _ _ _ (by simp)
        (fun fn hfn => ⟨hnoE fn (by simp [hfn]), fun hact => hrest ⟨fn, hfn, hact⟩⟩)

theorem foldl_energy_ASF (gw : ℚ) :
    ∀ (fns : List FoodNutrient) (n : NutrientSet) (ev : Option ℚ),
    (∀ fn ∈ fns, ¬ activeEnergyEntry "Energy" fn) →
    (∀ fn ∈ fns, ¬ activeEnergyEntry "Energy (Atwater General Factors)" fn) →
    (∃ fn ∈ fns, activeEnergyEntry "Energy (Atwater Specific Factors)" fn) →
    ∃ fn ∈ fns, ∃ a, fn.name = "Energy (Atwater Specific Factors)" ∧ fn.unitName = "kcal" ∧
      fn.amount = some a ∧
      (List.foldl (calc_nutrient_step gw) (n, none, ev) fns).2 =
        (some "Energy (Atwater Specific Factors)", some (gw / 100 * a)) := by
  intro fns
  induction fns with
  | nil =>
    rintro n ev _ _ ⟨fn, hfn, _⟩
    cases hfn
  | cons fn0 rest ih =>
    intro n ev hnoE hnoG hex
    rw [List.foldl_cons]
    by_cases hfn0 : activeEnergyEntry "Energy (Atwater Specific Factors)" fn0
    · obtain ⟨hname, hu, a, hamt⟩ := hfn0
      rw [state_eta _ _ (step_set_ASF gw n ev fn0 a hname hu hamt)]
      refine ⟨fn0, by simp, a, hname, hu, hamt, ?_⟩
      exact foldl_preserve_some gw rest _ _ _ (by simp)
        (fun fn hfn => ⟨hnoE fn (by simp [hfn]), hnoG fn (by simp [hfn])⟩)
    · have hrest : ∃ fn ∈ rest, activeEnergyEntry "Energy (Atwater Specific Factors)" fn := by
        rcases hex with ⟨fn, hfn, hact⟩
        rcases List.mem_cons.mp hfn with rfl | hfn2
        · exact absurd hact hfn0
        · exact ⟨fn, hfn2, hact⟩
      rw [state_eta _ _ (step_not_active gw n none ev fn0 (hnoE fn0 (by simp))
        (hnoG fn0 (by simp)) hfn0)]
      obtain ⟨fn, hfn, a, ha⟩ := ih _ _ (fun fn hfn => hnoE fn (by simp [hfn]))
        (fun fn hfn => hnoG fn (by simp [hfn])) hrest
      exact ⟨fn, by simp [hfn], a, ha⟩

theorem foldl_nutrients_nodup (gw : ℚ) :
    ∀ (fns : List FoodNutrient) (n : NutrientSet) (eu : Option String) (ev : Option ℚ),
    (dkeys n).Nodup →
    (dkeys (List.foldl (calc_nutrient_step gw) (n, eu, ev) fns).1).Nodup := by
  intro fns
  induction fns with
  | nil =>
    intro n eu ev h
    exact h
  | cons fn0 rest ih =>
    intro n eu ev h
    rw [List.foldl_cons]
    have hn1 : (dkeys (calc_nutrient_step gw (n, eu, ev) fn0).1).Nodup := by
      rcases step_generic_or_keep gw n eu ev fn0 with hk | ⟨a, _, _, _, hk⟩
      · rw [hk]
        exact h
      · rw [hk]
        exact dkeys_dset_nodup _ _ _ h
    exact ih (calc_nutrient_step gw (n, eu, ev) fn0).1
      (calc_nutrient_step gw (n, eu, ev) fn0).2.1
      (calc_nutrient_step gw (n, eu, ev) fn0).2.2 hn1

theorem foldl_nutrients_keys (gw : ℚ) :
    ∀ (fns : List FoodNutrient) (n : NutrientSet) (eu : Option String) (ev : Option ℚ)
      (k : String),
    k ∈ dkeys (List.foldl (calc_nutrient_step gw) (n, eu, ev) fns).1 →
    k ∈ dkeys n ∨ ∃ fn ∈ fns, is_kcal_energy fn = false ∧ fn.name ≠ "" ∧
      k = fn.name ++ " (" ++ fn.unitName ++ ")" := by
  intro fns
  induction fns with
  | nil =>
    intro n eu ev k h
    exact Or.inl h
  | cons fn0 rest ih =>
    intro n eu ev k h
    rw [List.foldl_cons] at h
    rcases ih (calc_nutrient_step gw (n, eu, ev) fn0).1
      (calc_nutrient_step gw (n, eu, ev) fn0).2.1
      (calc_nutrient_step gw (n, eu, ev) fn0).2.2 k h with h1 | ⟨fn, hfn, hk⟩
    · rcases step_generic_or_keep gw n eu ev fn0 with hk | ⟨a, _, hkcal, hname, hk⟩
      · rw [hk] at h1
        exact Or.inl h1
      · rw [hk] at h1
        rcases mem_dkeys_dset _ _ _ _ h1 with h2 | h2
        · exact Or.inl h2
        · exact Or.inr ⟨fn0, by simp, hkcal, hname, h2⟩
    · exact Or.inr ⟨fn, by simp [hfn], hk⟩

instance activeEnergyEntry_decidable (nm : String) (fn : FoodNutrient) :
    Decidable (activeEnergyEntry nm fn) :=
  decidable_of_iff (fn.name = nm ∧ fn.unitName = "kcal" ∧ fn.amount ≠ none)
    (by cases hc : fn.amount <;> simp [activeEnergyEntry, hc])

/-! ## Lemmas: `extract_base_amount` and `find_food_portion` unfolding -/

theorem parseLeadingNumber_desc_ne {s : String} {v : ℚ}
    (h : parseLeadingNumber s = some v) : s ≠ "" ∧ s ≠ "(none)" := by
  constructor
  · rintro rfl
    rw [show parseLeadingNumber "" = none from by decide] at h
    simp at h
  · rintro rfl
    rw [show parseLeadingNumber "(none)" = none from by decide] at h
    simp at h

theorem extract_base_amount_of_parse {p : FoodPortion} {v : ℚ}
    (h : parseLeadingNumber p.portionDescription = some v) :
    extract_base_amount p = .ok v := by
  unfold extract_base_amount
  dsimp only
  rw [if_pos (parseLeadingNumber_desc_ne h), h]

theorem extract_base_amount_of_amount {p : FoodPortion} {a : ℚ}
    (hparse : parseLeadingNumber p.portionDescription = none)
    (hamt : p.amount = some a) (hpos : 0 < a) :
    extract_base_amount p = .ok a := by
  unfold extract_base_amount
  dsimp only
  by_cases hd : p.portionDescription ≠ "" ∧ p.portionDescription ≠ "(none)"
  · rw [if_pos hd, hparse, hamt]
    simp [hpos]
  · rw [if_neg hd, hamt]
    simp [hpos]

theorem extract_base_amount_error {p : FoodPortion}
    (hparse : parseLeadingNumber p.portionDescription = none)
    (hamt : ∀ a, p.amount = some a → a ≤ 0) :
    ∃ msg, extract_base_amount p = .error msg := by
  unfold extract_base_amount
  dsimp only
  rcases ha : p.amount with _ | a
  · by_cases hd : p.portionDescription ≠ "" ∧ p.portionDescription ≠ "(none)"
    · exact ⟨_, by rw [if_pos hd, hparse]⟩
    · exact ⟨_, by rw [if_neg hd]⟩
  · have hle : ¬ a > 0 := not_lt.mpr (hamt a ha)
    by_cases hd : p.portionDescription ≠ "" ∧ p.portionDescription ≠ "(none)"
    · exact ⟨_, by rw [if_pos hd, hparse]; simp [hle]; rfl⟩
    · exact ⟨_, by rw [if_neg hd]; simp [hle]; rfl⟩

theorem find_food_portion_nonweight (q : ℚ) (u : MeasureUnit) (fps : List FoodPortion)
    (hne : fps ≠ []) (hq : 0 < q) (hw : u.isWeightUnit = false) :
    find_food_portion q u fps =
      (match best_loop (get_unit_aliases u) fps none 0 with
        | (none, _) => .error (.measureMatch (no_match_message q u fps))
        | (some best_match, best_score) =>
          if best_score = 0 then
            .error (.measureMatch (no_match_message q u fps))
          else
            match extract_base_amount best_match with
            | .error e => .error (.measureMatch (rematch_message u best_match e))
            | .ok base_amount =>
              if base_amount = 0 then .error .zeroDivision
              else .ok (best_match, q / base_amount * best_match.gramWeight)) := by
  unfold find_food_portion
  rw [if_neg hne, if_neg (not_le.mpr hq), if_neg (by simp [hw])]

instance exceptDecidableEq {e a : Type} [DecidableEq e] [DecidableEq a] :
    DecidableEq (Except e a)
  | .error e1, .error e2 =>
    if h : e1 = e2 then isTrue (by rw [h]) else isFalse (by intro hc; cases hc; exact h rfl)
  | .error _, .ok _ => isFalse (by intro hc; cases hc)
  | .ok _, .error _ => isFalse (by intro hc; cases hc)
  | .ok a1, .ok a2 =>
    if h : a1 = a2 then isTrue (by rw [h]) else isFalse (by intro hc; cases hc; exact h rfl)

/-! ## Claim C2 -/

/-- C2 (counterexample): contrary to the claim, `find_food_portion` does not
succeed for a weight unit on the empty portion list — the emptiness check runs
before the weight-unit branch and raises `MeasureMatchError`. -/
theorem claimC2_counterexample :
    find_food_portion 1 .Lb [] =
      .error (.measureMatch "No foodPortions available in ingredient data") := by
  rfl

/-- C2 (amended): for every quantity `q > 0` and every **non-empty** portion
list, whatever its contents, `find_food_portion` succeeds without consulting
the portions and returns gram weight `q * c` (`c` = 28.3495 for Oz, 453.592
for Lb, 1 for Gram, 1000 for Kg) together with a synthetic portion carrying
that weight. -/
theorem claimC2_weight_units (q : ℚ) (fps : List FoodPortion)
    (hq : 0 < q) (hne : fps ≠ []) :
    (∃ p : FoodPortion, find_food_portion q .Oz fps = .ok (p, q * 28.3495) ∧
      p.gramWeight = q * 28.3495 ∧ p.modifier = "") ∧
    (∃ p : FoodPortion, find_food_portion q .Lb fps = .ok (p, q * 453.592) ∧
      p.gramWeight = q * 453.592 ∧ p.modifier = "") ∧
    (∃ p : FoodPortion, find_food_portion q .Gram fps = .ok (p, q * 1) ∧
      p.gramWeight = q * 1 ∧ p.modifier = "") ∧
    (∃ p : FoodPortion, find_food_portion q .Kg fps = .ok (p, q * 1000) ∧
      p.gramWeight = q * 1000 ∧ p.modifier = "") := by
  have hq2 : ¬ q ≤ 0 := not_le.mpr hq
  have hOz : find_food_portion q .Oz fps =
      .ok ({ modifier := "", portionDescription := toString q ++ " " ++ "Oz",
             gramWeight := q * 28.3495, amount := none }, q * 28.3495) := by
    unfold find_food_portion
    rw [if_neg hne, if_neg hq2]
    rfl
  have hLb : find_food_portion q .Lb fps =
      .ok ({ modifier := "", portionDescription := toString q ++ " " ++ "Lb",
             gramWeight := q * 453.592, amount := none }, q * 453.592) := by
    unfold find_food_portion
    rw [if_neg hne, if_neg hq2]
    rfl
  have hGram : find_food_portion q .Gram fps =
      .ok ({ modifier := "", portionDescription := toString q ++ " " ++ "Gram",
             gramWeight := q, amount := none }, q) := by
    unfold find_food_portion
    rw [if_neg hne, if_neg hq2]
    rfl
  have hKg : find_food_portion q .Kg fps =
      .ok ({ modifier := "", portionDescription := toString q ++ " " ++ "Kg",
             gramWeight := q * 1000, amount := none }, q * 1000) := by
    unfold find_food_portion
    rw [if_neg hne, if_neg hq2]
    rfl
  refine ⟨⟨_, hOz, rfl, rfl⟩, ⟨_, hLb, rfl, rfl⟩,
    ⟨_, by rw [mul_one]; exact hGram, by rw [mul_one], rfl⟩,
    ⟨_, hKg, rfl, rfl⟩⟩

/-- C2 (witness). -/
theorem claimC2_weight_units_witness :
    ∃ p : FoodPortion,
      find_food_portion 2 .Lb [{ modifier := "cup" }] = .ok (p, 2 * 453.592) ∧
      p.gramWeight = 2 * 453.592 ∧ p.modifier = "" :=
  (claimC2_weight_units 2 [{ modifier := "cup" }] (by norm_num) (by simp)).2.1

/-! ## Claim C3 -/

/-- C3: for non-weight conversions the base amount comes from a leading
numeral of `portionDescription`; failing that, from a positive explicit
`amount` field; failing both, `extract_base_amount` errors and
`find_food_portion` raises `MeasureMatchError` instead of defaulting to 1. -/
theorem claimC3_base_amount :
    (∀ (p : FoodPortion) (v : ℚ), parseLeadingNumber p.portionDescription = some v →
      extract_base_amount p = .ok v) ∧
    (∀ (p : FoodPortion) (a : ℚ), parseLeadingNumber p.portionDescription = none →
      p.amount = some a → 0 < a → extract_base_amount p = .ok a) ∧
    (∀ p : FoodPortion, parseLeadingNumber p.portionDescription = none →
      (∀ a, p.amount = some a → a ≤ 0) → ∃ msg, extract_base_amount p = .error msg) ∧
    (∀ (q : ℚ) (u : MeasureUnit) (fps : List FoodPortion) (bm : FoodPortion)
        (s : Nat) (e : String),
      0 < q → u.isWeightUnit = false → fps ≠ [] →
      best_loop (get_unit_aliases u) fps none 0 = (some bm, s) → s ≠ 0 →
      extract_base_amount bm = .error e →
      find_food_portion q u fps = .error (.measureMatch (rematch_message u bm e))) := by
  refine ⟨fun p v h => extract_base_amount_of_parse h,
    fun p a h1 h2 h3 => extract_base_amount_of_amount h1 h2 h3,
    fun p h1 h2 => extract_base_amount_error h1 h2, ?_⟩
  intro q u fps bm s e hq hw hne hbl hs hext
  rw [find_food_portion_nonweight q u fps hne hq hw, hbl]
  simp [hs, hext]

/-- C3 (witness). -/
theorem claimC3_witness :
    extract_base_amount { modifier := "cup", portionDescription := "1 cup",
                          gramWeight := 244, amount := none } = .ok 1 :=
  claimC3_base_amount.1
    { modifier := "cup", portionDescription := "1 cup", gramWeight := 244, amount := none }
    1 (by decide)

/-! ## Claim C7 -/

/-- C7: for every successful non-weight match with base amount `b` and portion
gram weight `g`, the returned gram weight is `(quantity / b) * g`, hence
requesting `k * b` yields `k * g`. -/
theorem claimC7_linearity (q b : ℚ) (u : MeasureUnit) (fps : List FoodPortion)
    (bm : FoodPortion) (s : Nat)
    (hq : 0 < q) (hw : u.isWeightUnit = false) (hne : fps ≠ [])
    (hbl : best_loop (get_unit_aliases u) fps none 0 = (some bm, s)) (hs : s ≠ 0)
    (hext : extract_base_amount bm = .ok b) (hb : b ≠ 0) :
    find_food_portion q u fps = .ok (bm, q / b * bm.gramWeight) ∧
    (∀ k : ℚ, q = k * b → q / b * bm.gramWeight = k * bm.gramWeight) := by
  constructor
  · rw [find_food_portion_nonweight q u fps hne hq hw, hbl]
    simp [hs, hext, hb]
  · rintro k rfl
    rw [mul_div_assoc, div_self hb, mul_one]

/-- C7 (witness): Scenario A — 2 Cup against a 244 g "1 cup" portion gives
488 g. -/
theorem claimC7_witness :
    find_food_portion 2 .Cup
      [{ modifier := "cup", portionDescription := "1 cup", gramWeight := 244, amount := some 1 }] =
      .ok ({ modifier := "cup", portionDescription := "1 cup", gramWeight := 244,
             amount := some 1 }, 488) := by
  have h := (claimC7_linearity 2 1 .Cup
    [{ modifier := "cup", portionDescription := "1 cup", gramWeight := 244, amount := some 1 }]
    { modifier := "cup", portionDescription := "1 cup", gramWeight := 244, amount := some 1 }
    100 (by norm_num) (by decide) (by simp) (by decide) (by decide) (by decide) (by norm_num)).1
  rw [h]
  norm_num

theorem sContains_foldl_append {x : String} :
    ∀ (parts : List String) (acc : String),
    (sContains acc x = true ∨ x ∈ parts) →
    sContains (List.foldl (· ++ ·) acc parts) x = true := by
  intro parts
  induction parts with
  | nil =>
    intro acc h
    rcases h with h | h
    · exact h
    · cases h
  | cons p rest ih =>
    intro acc h
    rw [List.foldl_cons]
    rcases h with h | h
    · exact ih (acc ++ p) (Or.inl (sContains_append_left h p))
    · rcases List.mem_cons.mp h with rfl | h2
      · exact ih (acc ++ x) (Or.inl (sContains_append_right (sContains_refl x) acc))
      · exact ih (acc ++ p) (Or.inr h2)

theorem sContains_join_mem {parts : List String} {x : String} (hx : x ∈ parts) :
    sContains (String.join parts) x = true :=
  sContains_foldl_append parts "" (Or.inr hx)

/-! ## Claim C5 -/

theorem score_portion_match_desc (al : List String) (p : FoodPortion)
    (hm : p.modifier = "" ∨ ∀ a ∈ al, normalize_modifier p.modifier ≠ a ∧
      sContains (normalize_modifier p.modifier) a = false) :
    score_portion_match p al =
      if p.portionDescription = "" then 0
      else
        match al.find? (fun a =>
            sContains (normalize_portion_description p.portionDescription) a) with
        | some a =>
          if sStarts (normalize_portion_description p.portionDescription) a then 80 else 50
        | none => 0 := by
  unfold score_portion_match
  dsimp only
  rcases hm with hm | hm
  · rw [if_pos hm]
  · have hc : ¬ al.contains (normalize_modifier p.modifier) = true := by
      intro hcon
      have hmem : normalize_modifier p.modifier ∈ al := by simpa using hcon
      exact (hm _ hmem).1 rfl
    have hany : ¬ (al.any (fun a => sContains (normalize_modifier p.modifier) a)) = true := by
      rw [Bool.not_eq_true]
      exact List.any_eq_false.mpr (fun a2 ha2 => by simp [(hm a2 ha2).2])
    by_cases hmne : p.modifier = ""
    · rw [if_pos hmne]
    · rw [if_neg hmne, if_neg hc, if_neg hany]

/-- C5 (counterexample): the claim fixes a determinate rule — 80 whenever the
stripped description starts with an alias — but the source iterates the alias
*set* in an unspecified hash order.  For the portion description "c cup of"
(which starts with the Cup alias "c" and merely contains the Cup alias "cup")
two admissible iteration orders of the Cup alias set produce 50 and 80
respectively, so the claimed rule is not a property of the program. -/
theorem claimC5_counterexample :
    (["cup", "cups", "c"] : List String).Perm (get_unit_aliases .Cup) ∧
    (["c", "cup", "cups"] : List String).Perm (get_unit_aliases .Cup) ∧
    (∃ a ∈ get_unit_aliases .Cup,
      sStarts (normalize_portion_description "c cup of") a = true) ∧
    score_portion_match { modifier := "", portionDescription := "c cup of",
                          gramWeight := 1, amount := none } ["cup", "cups", "c"] = 50 ∧
    score_portion_match { modifier := "", portionDescription := "c cup of",
                          gramWeight := 1, amount := none } ["c", "cup", "cups"] = 80 := by
  refine ⟨List.Perm.refl _, @List.perm_append_comm String ["c"] ["cup", "cups"], ⟨"c", by decide, by decide⟩,
    by decide, by decide⟩

/-- C5 (amended): the source iterates the alias *set* in an unspecified order,
so the scoring rule is proven for every possible iteration order `al` (every
permutation of the alias set).  The score is 100 exactly as claimed when the
normalized modifier equals or contains an alias, and 0 when no alias occurs
anywhere — both order-invariant.  When the modifier does not match and some
alias occurs inside the normalized, numeral-stripped description, the score is
80 or 50, decided by the first contained alias in the iteration order: hence
it is 80 whenever every contained alias starts the description, 50 whenever
none does, and order-dependent otherwise.  Selection considers only candidates
with positive gramWeight and picks the candidate with the strictly highest
score, keeping the first-encountered candidate on ties; nothing is selected
when no candidate scores above 0. -/
theorem claimC5_scoring_selection (u : MeasureUnit) (fps : List FoodPortion)
    (al : List String) (hperm : al.Perm (get_unit_aliases u)) :
    (∀ p : FoodPortion, p.modifier ≠ "" →
      (∃ a ∈ get_unit_aliases u, normalize_modifier p.modifier = a ∨
        sContains (normalize_modifier p.modifier) a = true) →
      score_portion_match p al = 100) ∧
    (∀ p : FoodPortion,
      (p.modifier = "" ∨ ∀ a ∈ get_unit_aliases u,
        normalize_modifier p.modifier ≠ a ∧
        sContains (normalize_modifier p.modifier) a = false) →
      p.portionDescription ≠ "" →
      (∃ a ∈ get_unit_aliases u,
        sContains (normalize_portion_description p.portionDescription) a = true) →
      ((score_portion_match p al = 80 ∨ score_portion_match p al = 50) ∧
       (∀ a0, al.find? (fun a =>
            sContains (normalize_portion_description p.portionDescription) a) = some a0 →
          score_portion_match p al =
            if sStarts (normalize_portion_description p.portionDescription) a0
            then 80 else 50) ∧
       ((∀ a ∈ get_unit_aliases u,
          sContains (normalize_portion_description p.portionDescription) a = true →
          sStarts (normalize_portion_description p.portionDescription) a = true) →
        score_portion_match p al = 80) ∧
       ((∀ a ∈ get_unit_aliases u,
          sContains (normalize_portion_description p.portionDescription) a = true →
          sStarts (normalize_portion_description p.portionDescription) a = false) →
        score_portion_match p al = 50))) ∧
    (∀ p : FoodPortion,
      (p.modifier = "" ∨ ∀ a ∈ get_unit_aliases u,
        normalize_modifier p.modifier ≠ a ∧
        sContains (normalize_modifier p.modifier) a = false) →
      (p.portionDescription = "" ∨ ∀ a ∈ get_unit_aliases u,
        sContains (normalize_portion_description p.portionDescription) a = false) →
      score_portion_match p al = 0) ∧
    (∀ (bm : FoodPortion) (s : Nat),
      best_loop al fps none 0 = (some bm, s) →
      bm ∈ fps ∧ 0 < bm.gramWeight ∧ score_portion_match bm al = s ∧
      0 < s ∧
      (∀ p ∈ fps, 0 < p.gramWeight → score_portion_match p al ≤ s) ∧
      ∃ l1 l2, fps = l1 ++ bm :: l2 ∧
        ∀ p ∈ l1, 0 < p.gramWeight → score_portion_match p al < s) ∧
    (∀ s : Nat, best_loop al fps none 0 = (none, s) →
      ∀ p ∈ fps, 0 < p.gramWeight → score_portion_match p al = 0) := by
  refine ⟨?_, ?_, ?_, ?_, ?_⟩
  · intro p hmne hex
    obtain ⟨a, ha, hcase⟩ := hex
    have ha2 : a ∈ al := hperm.mem_iff.mpr ha
    unfold score_portion_match
    dsimp only
    rw [if_neg hmne]
    by_cases hc : al.contains (normalize_modifier p.modifier) = true
    · rw [if_pos hc]
    · have hany : (al.any (fun a3 => sContains (normalize_modifier p.modifier) a3)) = true := by
        refine List.any_eq_true.mpr ⟨a, ha2, ?_⟩
        rcases hcase with rfl | h
        · exact sContains_refl _
        · exact h
      rw [if_neg hc, if_pos hany]
  · intro p hm hd hex
    have hm2 : p.modifier = "" ∨ ∀ a ∈ al, normalize_modifier p.modifier ≠ a ∧
        sContains (normalize_modifier p.modifier) a = false := by
      rcases hm with h | h
      · exact Or.inl h
      · exact Or.inr (fun a ha => h a (hperm.mem_iff.mp ha))
    have hkey := score_portion_match_desc al p hm2
    rw [if_neg hd] at hkey
    obtain ⟨a, ha, hca⟩ := hex
    have ha2 : a ∈ al := hperm.mem_iff.mpr ha
    have hisSome : (al.find? (fun a3 =>
        sContains (normalize_portion_description p.portionDescription) a3)).isSome := by
      rw [List.find?_isSome]
      exact ⟨a, ha2, hca⟩
    obtain ⟨a0, ha0⟩ := Option.isSome_iff_exists.mp hisSome
    have ha0mem : a0 ∈ al := List.mem_of_find?_eq_some ha0
    have ha0c : sContains (normalize_portion_description p.portionDescription) a0 = true :=
      List.find?_some ha0
    rw [ha0] at hkey
    dsimp only at hkey
    refine ⟨?_, ?_, ?_, ?_⟩
    · rw [hkey]
      by_cases hst : sStarts (normalize_portion_description p.portionDescription) a0 = true
      · rw [if_pos hst]
        exact Or.inl rfl
      · rw [if_neg hst]
        exact Or.inr rfl
    · intro a1 ha1
      rw [ha0] at ha1
      cases Option.some.inj ha1
      exact hkey
    · intro hall
      rw [hkey, if_pos (hall a0 (hperm.mem_iff.mp ha0mem) ha0c)]
    · intro hnone
      have hf := hnone a0 (hperm.mem_iff.mp ha0mem) ha0c
      rw [hkey, if_neg (by rw [hf]; exact Bool.false_ne_true)]
  · intro p hm hd
    have hm2 : p.modifier = "" ∨ ∀ a ∈ al, normalize_modifier p.modifier ≠ a ∧
        sContains (normalize_modifier p.modifier) a = false := by
      rcases hm with h | h
      · exact Or.inl h
      · exact Or.inr (fun a ha => h a (hperm.mem_iff.mp ha))
    have hkey := score_portion_match_desc al p hm2
    rcases hd with hd | hd
    · rw [if_pos hd] at hkey
      exact hkey
    · by_cases hdne : p.portionDescription = ""
      · rw [if_pos hdne] at hkey
        exact hkey
      · rw [if_neg hdne] at hkey
        have hfind : al.find? (fun a3 =>
            sContains (normalize_portion_description p.portionDescription) a3) = none :=
          List.find?_eq_none.mpr (fun a ha => by simp [hd a (hperm.mem_iff.mp ha)])
        rw [hfind] at hkey
        exact hkey
  · intro bm s hbl
    obtain ⟨ga, gb, gc⟩ := best_loop_spec al fps none 0
    rw [hbl] at ga gb gc
    rcases gc with h | ⟨l1, p, l2, hsplit, h1, h2, h3, h4, h5, h6⟩
    · simp at h
    · simp only at h1 h2
      rcases Option.some.inj h1 with rfl
      refine ⟨by rw [hsplit]; simp, h3, h2.symm, by rw [h2]; exact h4, gb,
        l1, l2, hsplit, fun p2 hp2 hgw => h5 p2 hp2 hgw⟩
  · intro s hbl p hp hgw
    obtain ⟨ga, gb, gc⟩ := best_loop_spec al fps none 0
    rw [hbl] at ga gb gc
    rcases gc with h | ⟨l1, p2, l2, hsplit, h1, h2, h3, h4, h5, h6⟩
    · have hs0 : s = 0 := by
        have h2 := congrArg Prod.snd h
        simpa using h2
      have hle := gb p hp hgw
      simp only [hs0] at hle
      exact Nat.le_zero.mp hle
    · simp at h1

/-- C5 (witness): the order-robust 100 rule applied under a non-insertion
iteration order of the Cup alias set (its reverse). -/
theorem claimC5_witness :
    score_portion_match { modifier := "cup", portionDescription := "1 cup",
                          gramWeight := 244, amount := some 1 } ["c", "cups", "cup"] = 100 :=
  (claimC5_scoring_selection .Cup [] ["c", "cups", "cup"]
      (List.reverse_perm (get_unit_aliases .Cup))).1
    { modifier := "cup", portionDescription := "1 cup", gramWeight := 244, amount := some 1 }
    (by decide) ⟨"cup", by decide, Or.inl (by decide)⟩

/-! ## Claim C6 -/

theorem format_available_contains (fps : List FoodPortion) (p : FoodPortion)
    (hp : p ∈ fps) (hgw : 0 < p.gramWeight) :
    (p.modifier ≠ "" → sContains (format_available_portions fps) p.modifier = true) ∧
    (p.portionDescription ≠ "" →
      sContains (format_available_portions fps) p.portionDescription = true) := by
  have hgt : p.gramWeight > 0 := hgw
  have hmain : ∀ x : String,
      x ∈ ((if p.modifier ≠ "" then ["modifier=" ++ p.modifier] else []) ++
        (if p.portionDescription ≠ "" then ["description=" ++ p.portionDescription] else [])) →
      sContains (format_available_portions fps) x = true := by
    intro x hx
    have hine : ((if p.modifier ≠ "" then ["modifier=" ++ p.modifier] else []) ++
        (if p.portionDescription ≠ "" then ["description=" ++ p.portionDescription] else [])) ≠
        [] := by
      intro hemp
      rw [hemp] at hx
      cases hx
    have hline : ("  - " ++ join_sep ", "
        ((if p.modifier ≠ "" then ["modifier=" ++ p.modifier] else []) ++
         (if p.portionDescription ≠ "" then ["description=" ++ p.portionDescription] else []))) ∈
        fps.filterMap (fun portion =>
          if portion.gramWeight > 0 then
            let info :=
              (if portion.modifier ≠ "" then ["modifier=" ++ portion.modifier] else []) ++
              (if portion.portionDescription ≠ ""
                then ["description=" ++ portion.portionDescription] else [])
            if info ≠ [] then some ("  - " ++ join_sep ", " info) else none
          else none) := by
      refine List.mem_filterMap.mpr ⟨p, hp, ?_⟩
      dsimp only
      rw [if_pos hgt, if_pos hine]
    have hfap : format_available_portions fps = join_sep "\n"
        (fps.filterMap (fun portion =>
          if portion.gramWeight > 0 then
            let info :=
              (if portion.modifier ≠ "" then ["modifier=" ++ portion.modifier] else []) ++
              (if portion.portionDescription ≠ ""
                then ["description=" ++ portion.portionDescription] else [])
            if info ≠ [] then some ("  - " ++ join_sep ", " info) else none
          else none)) := by
      unfold format_available_portions
      dsimp only
      rw [if_pos (List.ne_nil_of_mem hline)]
    rw [hfap]
    refine sContains_trans (sContains_join_sep hline) ?_
    exact sContains_append_right (sContains_join_sep hx) _
  constructor
  · intro hm
    refine sContains_trans (hmain ("modifier=" ++ p.modifier) ?_) ?_
    · simp [hm]
    · exact sContains_append_right (sContains_refl _) _
  · intro hd
    refine sContains_trans (hmain ("description=" ++ p.portionDescription) ?_) ?_
    · simp [hd]
    · exact sContains_append_right (sContains_refl _) _

/-- C6: when every positive-`gramWeight` candidate scores 0 for a non-weight
unit, `find_food_portion` raises a `MeasureMatchError` whose message names the
requested quantity and unit and contains the modifier/description of every
candidate portion with positive `gramWeight`. -/
theorem claimC6_no_match (q : ℚ) (u : MeasureUnit) (fps : List FoodPortion)
    (hq : 0 < q) (hw : u.isWeightUnit = false) (hne : fps ≠ [])
    (hzero : ∀ p ∈ fps, 0 < p.gramWeight →
      score_portion_match p (get_unit_aliases u) = 0) :
    find_food_portion q u fps = .error (.measureMatch (no_match_message q u fps)) ∧
    sContains (no_match_message q u fps) (toString q) = true ∧
    sContains (no_match_message q u fps) u.value = true ∧
    ∀ p ∈ fps, 0 < p.gramWeight →
      (p.modifier ≠ "" → sContains (no_match_message q u fps) p.modifier = true) ∧
      (p.portionDescription ≠ "" →
        sContains (no_match_message q u fps) p.portionDescription = true) := by
  have hbl : best_loop (get_unit_aliases u) fps none 0 = (none, 0) := by
    obtain ⟨ga, gb, gc⟩ := best_loop_spec (get_unit_aliases u) fps none 0
    rcases gc with h | ⟨l1, p, l2, hsplit, h1, h2, h3, h4, h5, h6⟩
    · exact h
    · have hmem : p ∈ fps := by
        rw [hsplit]
        simp
      have h0 := hzero p hmem h3
      omega
  have hfapmem : sContains (no_match_message q u fps)
      (format_available_portions fps) = true := by
    exact sContains_join_mem (by simp [no_match_message])
  refine ⟨?_, ?_, ?_, ?_⟩
  · rw [find_food_portion_nonweight q u fps hne hq hw, hbl]
  · exact sContains_join_mem (by simp [no_match_message])
  · exact sContains_join_mem (by simp [no_match_message])
  · intro p hp hgw
    obtain ⟨hm, hd⟩ := format_available_contains fps p hp hgw
    exact ⟨fun h => sContains_trans hfapmem (hm h),
      fun h => sContains_trans hfapmem (hd h)⟩

/-- C6 (witness): Scenario B — an ingredient with only a "cup" portion,
requested as Piece. -/
theorem claimC6_witness :
    find_food_portion 1 .Piece
        [{ modifier := "cup", portionDescription := "1 cup", gramWeight := 244,
           amount := some 1 }] =
      .error (.measureMatch (no_match_message 1 .Piece
        [{ modifier := "cup", portionDescription := "1 cup", gramWeight := 244,
           amount := some 1 }])) ∧
    sContains (no_match_message 1 .Piece
      [{ modifier := "cup", portionDescription := "1 cup", gramWeight := 244,
         amount := some 1 }]) "Piece" = true :=
  let fps : List FoodPortion :=
    [{ modifier := "cup", portionDescription := "1 cup", gramWeight := 244, amount := some 1 }]
  have h := claimC6_no_match 1 .Piece fps (by norm_num) (by decide) (by simp)
    (by decide)
  ⟨h.1, h.2.2.1⟩

/-! ## Claim C8 -/

/-- C8: macros are computed from per-serving Protein/Carbohydrate/Fat grams
(0 when absent) with calories `protein*4 + carbs*4 + fat*9`; each percent is
the macro's calories over the total, rounded (like the grams) to one decimal;
the three percents sum to 100 within rounding tolerance (`3/20`) when the
total is positive and are all exactly 0 otherwise. -/
theorem claimC8_macros (nf : NutrientSet) :
    (calculate_macros nf).protein.grams = round1 (dget nf "Protein (g)" 0) ∧
    (calculate_macros nf).carbs.grams =
      round1 (dget nf "Carbohydrate, by difference (g)" 0) ∧
    (calculate_macros nf).fat.grams = round1 (dget nf "Total lipid (fat) (g)" 0) ∧
    (0 < dget nf "Protein (g)" 0 * 4 + dget nf "Carbohydrate, by difference (g)" 0 * 4 +
        dget nf "Total lipid (fat) (g)" 0 * 9 →
      (calculate_macros nf).protein.percent =
        round1 (dget nf "Protein (g)" 0 * 4 /
          (dget nf "Protein (g)" 0 * 4 + dget nf "Carbohydrate, by difference (g)" 0 * 4 +
            dget nf "Total lipid (fat) (g)" 0 * 9) * 100) ∧
      (calculate_macros nf).carbs.percent =
        round1 (dget nf "Carbohydrate, by difference (g)" 0 * 4 /
          (dget nf "Protein (g)" 0 * 4 + dget nf "Carbohydrate, by difference (g)" 0 * 4 +
            dget nf "Total lipid (fat) (g)" 0 * 9) * 100) ∧
      (calculate_macros nf).fat.percent =
        round1 (dget nf "Total lipid (fat) (g)" 0 * 9 /
          (dget nf "Protein (g)" 0 * 4 + dget nf "Carbohydrate, by difference (g)" 0 * 4 +
            dget nf "Total lipid (fat) (g)" 0 * 9) * 100) ∧
      |(calculate_macros nf).protein.percent + (calculate_macros nf).carbs.percent +
        (calculate_macros nf).fat.percent - 100| ≤ 3/20) ∧
    (dget nf "Protein (g)" 0 * 4 + dget nf "Carbohydrate, by difference (g)" 0 * 4 +
        dget nf "Total lipid (fat) (g)" 0 * 9 ≤ 0 →
      (calculate_macros nf).protein.percent = 0 ∧
      (calculate_macros nf).carbs.percent = 0 ∧
      (calculate_macros nf).fat.percent = 0) := by
  set P := dget nf "Protein (g)" 0 with hP
  set C := dget nf "Carbohydrate, by difference (g)" 0 with hC
  set F := dget nf "Total lipid (fat) (g)" 0 with hF
  have hpp : (calculate_macros nf).protein.percent =
      if P * 4 + C * 4 + F * 9 > 0 then round1 (P * 4 / (P * 4 + C * 4 + F * 9) * 100)
      else 0 := rfl
  have hcp : (calculate_macros nf).carbs.percent =
      if P * 4 + C * 4 + F * 9 > 0 then round1 (C * 4 / (P * 4 + C * 4 + F * 9) * 100)
      else 0 := rfl
  have hfp : (calculate_macros nf).fat.percent =
      if P * 4 + C * 4 + F * 9 > 0 then round1 (F * 9 / (P * 4 + C * 4 + F * 9) * 100)
      else 0 := rfl
  refine ⟨rfl, rfl, rfl, ?_, ?_⟩
  · intro ht
    rw [hpp, hcp, hfp, if_pos ht, if_pos ht, if_pos ht]
    set x1 := P * 4 / (P * 4 + C * 4 + F * 9) * 100 with hx1
    set x2 := C * 4 / (P * 4 + C * 4 + F * 9) * 100 with hx2
    set x3 := F * 9 / (P * 4 + C * 4 + F * 9) * 100 with hx3
    refine ⟨rfl, rfl, rfl, ?_⟩
    have hT : P * 4 + C * 4 + F * 9 ≠ 0 := ne_of_gt ht
    have hsum : x1 + x2 + x3 = 100 := by
      rw [hx1, hx2, hx3]
      field_simp
      ring
    have b1 := abs_round1_sub x1
    have b2 := abs_round1_sub x2
    have b3 := abs_round1_sub x3
    have hsplit : round1 x1 + round1 x2 + round1 x3 - 100 =
        (round1 x1 - x1) + ((round1 x2 - x2) + (round1 x3 - x3)) := by
      rw [← hsum]
      ring
    rw [hsplit]
    have t1 := abs_add (round1 x1 - x1) ((round1 x2 - x2) + (round1 x3 - x3))
    have t2 := abs_add (round1 x2 - x2) (round1 x3 - x3)
    linarith
  · intro ht
    rw [hpp, hcp, hfp, if_neg (not_lt.mpr ht), if_neg (not_lt.mpr ht),
      if_neg (not_lt.mpr ht)]
    exact ⟨rfl, rfl, rfl⟩

/-- C8 (witness): Scenario C per-serving macros 20/30/10 g. -/
theorem claimC8_witness :
    |(calculate_macros [("Protein (g)", 20), ("Carbohydrate, by difference (g)", 30),
        ("Total lipid (fat) (g)", 10)]).protein.percent +
      (calculate_macros [("Protein (g)", 20), ("Carbohydrate, by difference (g)", 30),
        ("Total lipid (fat) (g)", 10)]).carbs.percent +
      (calculate_macros [("Protein (g)", 20), ("Carbohydrate, by difference (g)", 30),
        ("Total lipid (fat) (g)", 10)]).fat.percent - 100| ≤ 3/20 :=
  ((claimC8_macros [("Protein (g)", 20), ("Carbohydrate, by difference (g)", 30),
    ("Total lipid (fat) (g)", 10)]).2.2.2.1
      (by show (0:ℚ) < 20 * 4 + 30 * 4 + 10 * 9; norm_num)).2.2.2

/-! ## Claim C4 -/

theorem calculate_ingredient_nutrients_eq (data : IngredientData) (gw : ℚ) :
    calculate_ingredient_nutrients data gw =
      match (List.foldl (calc_nutrient_step gw) ([], none, none) data.foodNutrients).2.2 with
      | some v =>
        dset (List.foldl (calc_nutrient_step gw) ([], none, none) data.foodNutrients).1
          "Energy (kcal)" v
      | none => (List.foldl (calc_nutrient_step gw) ([], none, none) data.foodNutrients).1 :=
  rfl

/-- C4 (counterexample): an entry whose `unitName` itself spells a
parenthesized energy suffix escapes the kcal special-case and forges a second
`Energy*(kcal)`-like key next to `Energy (kcal)`. -/
theorem claimC4_counterexample :
    "Energy (Atwater General Factors) (kcal)" ∈ dkeys (calculate_ingredient_nutrients
      { foodNutrients :=
          [{ name := "Energy", unitName := "kcal", amount := some 100 },
           { name := "Energy", unitName := "Atwater General Factors) (kcal",
             amount := some 50 }] } 100) ∧
    "Energy (kcal)" ∈ dkeys (calculate_ingredient_nutrients
      { foodNutrients :=
          [{ name := "Energy", unitName := "kcal", amount := some 100 },
           { name := "Energy", unitName := "Atwater General Factors) (kcal",
             amount := some 50 }] } 100) ∧
    "Energy (Atwater General Factors) (kcal)" ∈ energy_like_keys ∧
    "Energy (Atwater General Factors) (kcal)" ≠ "Energy (kcal)" := by
  refine ⟨by decide, by decide, by decide, by decide⟩

/-- C4 (amended): provided no nutrient's generic `"{name} ({unitName})"` key
itself spells one of the energy-like keys, the output has pairwise-distinct
keys, contains no energy-like key other than `Energy (kcal)`, and the retained
`Energy (kcal)` value is chosen by the priority Energy > Atwater General >
Atwater Specific among kcal-unit entries (regardless of order), with no energy
key at all when no such entry exists. -/
theorem claimC4_energy_dedup (data : IngredientData) (gw : ℚ)
    (hclean : ∀ fn ∈ data.foodNutrients, is_kcal_energy fn = false →
      fn.name ++ " (" ++ fn.unitName ++ ")" ∉ energy_like_keys) :
    (dkeys (calculate_ingredient_nutrients data gw)).Nodup ∧
    (∀ k ∈ energy_like_keys, k ≠ "Energy (kcal)" →
      k ∉ dkeys (calculate_ingredient_nutrients data gw)) ∧
    ((∃ fn ∈ data.foodNutrients, activeEnergyEntry "Energy" fn) →
      ∃ fn ∈ data.foodNutrients, ∃ a, fn.name = "Energy" ∧ fn.unitName = "kcal" ∧
        fn.amount = some a ∧
        dget (calculate_ingredient_nutrients data gw) "Energy (kcal)" 0 = gw / 100 * a) ∧
    ((¬ ∃ fn ∈ data.foodNutrients, activeEnergyEntry "Energy" fn) →
      (∃ fn ∈ data.foodNutrients, activeEnergyEntry "Energy (Atwater General Factors)" fn) →
      ∃ fn ∈ data.foodNutrients, ∃ a, fn.name = "Energy (Atwater General Factors)" ∧
        fn.unitName = "kcal" ∧ fn.amount = some a ∧
        dget (calculate_ingredient_nutrients data gw) "Energy (kcal)" 0 = gw / 100 * a) ∧
    ((¬ ∃ fn ∈ data.foodNutrients, activeEnergyEntry "Energy" fn) →
      (¬ ∃ fn ∈ data.foodNutrients, activeEnergyEntry "Energy (Atwater General Factors)" fn) →
      (∃ fn ∈ data.foodNutrients, activeEnergyEntry "Energy (Atwater Specific Factors)" fn) →
      ∃ fn ∈ data.foodNutrients, ∃ a, fn.name = "Energy (Atwater Specific Factors)" ∧
        fn.unitName = "kcal" ∧ fn.amount = some a ∧
        dget (calculate_ingredient_nutrients data gw) "Energy (kcal)" 0 = gw / 100 * a) ∧
    ((¬ ∃ fn ∈ data.foodNutrients, activeEnergyEntry "Energy" fn) →
      (¬ ∃ fn ∈ data.foodNutrients, activeEnergyEntry "Energy (Atwater General Factors)" fn) →
      (¬ ∃ fn ∈ data.foodNutrients, activeEnergyEntry "Energy (Atwater Specific Factors)" fn) →
      "Energy (kcal)" ∉ dkeys (calculate_ingredient_nutrients data gw)) := by
  have hknodup : (dkeys (List.foldl (calc_nutrient_step gw) ([], none, none)
      data.foodNutrients).1).Nodup :=
    foldl_nutrients_nodup gw data.foodNutrients [] none none (by simp [dkeys])
  have hkeys : ∀ k ∈ energy_like_keys,
      k ∉ dkeys (List.foldl (calc_nutrient_step gw) ([], none, none) data.foodNutrients).1 := by
    intro k hk hmem
    rcases foldl_nutrients_keys gw data.foodNutrients [] none none k hmem with
      h | ⟨fn, hfn, hkcal, hname, hkk⟩
    · simp [dkeys] at h
    · exact (hclean fn hfn hkcal) (hkk ▸ hk)
  refine ⟨?_, ?_, ?_, ?_, ?_, ?_⟩
  · rw [calculate_ingredient_nutrients_eq]
    rcases hev : (List.foldl (calc_nutrient_step gw) ([], none, none)
        data.foodNutrients).2.2 with _ | v
    · exact hknodup
    · exact dkeys_dset_nodup _ _ _ hknodup
  · intro k hk hne
    rw [calculate_ingredient_nutrients_eq]
    rcases hev : (List.foldl (calc_nutrient_step gw) ([], none, none)
        data.foodNutrients).2.2 with _ | v
    · exact hkeys k hk
    · intro hmem
      rcases mem_dkeys_dset _ _ _ _ hmem with h | h
      · exact hkeys k hk h
      · exact hne h
  · intro hE
    obtain ⟨fn, hfn, a, hname, hu, hamt, hfold⟩ :=
      foldl_energy_E gw data.foodNutrients [] none none hE
    refine ⟨fn, hfn, a, hname, hu, hamt, ?_⟩
    rw [calculate_ingredient_nutrients_eq,
      show (List.foldl (calc_nutrient_step gw) ([], none, none)
        data.foodNutrients).2.2 = some (gw / 100 * a) from by rw [hfold]]
    exact dget_dset_self _ _ _ _
  · intro hE hG
    obtain ⟨fn, hfn, a, hname, hu, hamt, hfold⟩ :=
      foldl_energy_AGF gw data.foodNutrients [] none none (by simp)
        (fun fn hfn hact => hE ⟨fn, hfn, hact⟩) hG
    refine ⟨fn, hfn, a, hname, hu, hamt, ?_⟩
    rw [calculate_ingredient_nutrients_eq,
      show (List.foldl (calc_nutrient_step gw) ([], none, none)
        data.foodNutrients).2.2 = some (gw / 100 * a) from by rw [hfold]]
    exact dget_dset_self _ _ _ _
  · intro hE hG hS
    obtain ⟨fn, hfn, a, hname, hu, hamt, hfold⟩ :=
      foldl_energy_ASF gw data.foodNutrients [] none
        (fun fn hfn hact => hE ⟨fn, hfn, hact⟩)
        (fun fn hfn hact => hG ⟨fn, hfn, hact⟩) hS
    refine ⟨fn, hfn, a, hname, hu, hamt, ?_⟩
    rw [calculate_ingredient_nutrients_eq,
      show (List.foldl (calc_nutrient_step gw) ([], none, none)
        data.foodNutrients).2.2 = some (gw / 100 * a) from by rw [hfold]]
    exact dget_dset_self _ _ _ _
  · intro hE hG hS
    have hfold := foldl_not_active gw data.foodNutrients [] none none
      (fun fn hfn => ⟨fun hact => hE ⟨fn, hfn, hact⟩, fun hact => hG ⟨fn, hfn, hact⟩,
        fun hact => hS ⟨fn, hfn, hact⟩⟩)
    rw [calculate_ingredient_nutrients_eq,
      show (List.foldl (calc_nutrient_step gw) ([], none, none)
        data.foodNutrients).2.2 = none from by rw [hfold]]
    exact hkeys "Energy (kcal)" (by simp [energy_like_keys])

/-- C4 (witness): no direct Energy entry, Atwater General beats Atwater
Specific regardless of order. -/
theorem claimC4_witness :
    ∃ fn ∈ ({ foodNutrients :=
        [{ name := "Energy (Atwater Specific Factors)", unitName := "kcal", amount := some 30 },
         { name := "Energy (Atwater General Factors)", unitName := "kcal", amount := some 20 },
         { name := "Protein", unitName := "g", amount := some 10 }] } :
          IngredientData).foodNutrients,
      ∃ a : ℚ, fn.name = "Energy (Atwater General Factors)" ∧ fn.unitName = "kcal" ∧
        fn.amount = some a ∧
        dget (calculate_ingredient_nutrients
          { foodNutrients :=
              [{ name := "Energy (Atwater Specific Factors)", unitName := "kcal",
                 amount := some 30 },
               { name := "Energy (Atwater General Factors)", unitName := "kcal",
                 amount := some 20 },
               { name := "Protein", unitName := "g", amount := some 10 }] } 200)
          "Energy (kcal)" 0 = 200 / 100 * a :=
  (claimC4_energy_dedup
    { foodNutrients :=
        [{ name := "Energy (Atwater Specific Factors)", unitName := "kcal", amount := some 30 },
         { name := "Energy (Atwater General Factors)", unitName := "kcal", amount := some 20 },
         { name := "Protein", unitName := "g", amount := some 10 }] } 200
    (by decide)).2.2.2.1 (by decide) (by decide)

/-! ## Claim C9 -/

theorem update_recipe_nutrition_eq (name : String) (r : Recipe) (db : IngredientDB) :
    update_recipe_nutrition name r db =
      match calculate_recipe_nutrition r db with
      | .error e => (r, some e)
      | .ok total =>
        match energy_validation name
            (total.map (fun p => (p.1, p.2 / effective_serving_size r)))
            (missing_energy_ingredients r db) with
        | some e => (r, some e)
        | none =>
          ({ r with
              nutrition_facts :=
                some (total.map (fun p => (p.1, p.2 / effective_serving_size r))),
              macros := some (calculate_macros
                (total.map (fun p => (p.1, p.2 / effective_serving_size r)))) },
           none) := rfl

theorem update_meal_nutrition_eq (m : Meal) (rdb : RecipeDB) :
    update_meal_nutrition m rdb =
      match calculate_meal_nutrition m rdb with
      | .error e => (m, some e)
      | .ok nf =>
        ({ m with nutrition_facts := some nf, macros := some (calculate_macros nf) },
         none) := rfl

/-- C9: a recipe or meal recomputation is atomic — on failure the record is
left untouched, on success both derived fields are written with the freshly
computed values. -/
theorem claimC9_atomic_update :
    (∀ (name : String) (r : Recipe) (db : IngredientDB),
      ((update_recipe_nutrition name r db).2 ≠ none →
        (update_recipe_nutrition name r db).1 = r) ∧
      ((update_recipe_nutrition name r db).2 = none →
        ∃ total : NutrientSet, calculate_recipe_nutrition r db = .ok total ∧
          (update_recipe_nutrition name r db).1 =
            { r with
                nutrition_facts :=
                  some (total.map (fun p => (p.1, p.2 / effective_serving_size r))),
                macros := some (calculate_macros
                  (total.map (fun p => (p.1, p.2 / effective_serving_size r)))) })) ∧
    (∀ (m : Meal) (rdb : RecipeDB),
      ((update_meal_nutrition m rdb).2 ≠ none → (update_meal_nutrition m rdb).1 = m) ∧
      ((update_meal_nutrition m rdb).2 = none →
        ∃ nf : NutrientSet, calculate_meal_nutrition m rdb = .ok nf ∧
          (update_meal_nutrition m rdb).1 =
            { m with nutrition_facts := some nf,
                     macros := some (calculate_macros nf) })) := by
  constructor
  · intro name r db
    rcases hcalc : calculate_recipe_nutrition r db with e | total
    · rw [update_recipe_nutrition_eq, hcalc]
      exact ⟨fun _ => rfl, fun h => Option.noConfusion h⟩
    · rw [update_recipe_nutrition_eq, hcalc]
      dsimp only
      rcases hval : energy_validation name
          (total.map (fun p => (p.1, p.2 / effective_serving_size r)))
          (missing_energy_ingredients r db) with _ | e
      · rw [hval]
        exact ⟨fun h => absurd rfl h, fun _ => ⟨total, rfl, rfl⟩⟩
      · rw [hval]
        exact ⟨fun _ => rfl, fun h => Option.noConfusion h⟩
  · intro m rdb
    rcases hcalc : calculate_meal_nutrition m rdb with e | nf
    · rw [update_meal_nutrition_eq, hcalc]
      exact ⟨fun _ => rfl, fun h => Option.noConfusion h⟩
    · rw [update_meal_nutrition_eq, hcalc]
      exact ⟨fun h => absurd rfl h, fun _ => ⟨nf, rfl, rfl⟩⟩

/-- C9 (witness): a failing recomputation (ingredient with no nutrient rows)
leaves the recipe record untouched. -/
theorem claimC9_witness :
    (update_recipe_nutrition "recipe.json" sample_recipe sample_db_no_nutrients).1 =
      sample_recipe :=
  (claimC9_atomic_update.1 "recipe.json" sample_recipe sample_db_no_nutrients).1 (by decide)

/-! ## Claim C1 -/

theorem energy_validation_spec (name : String) (per : NutrientSet) (missing : List String) :
    (energy_validation name per missing ≠ none ↔
      (dget per "Energy (kcal)" 0 = 0 ∨
        (dget per "Protein (g)" 0 * 4 + dget per "Carbohydrate, by difference (g)" 0 * 4 +
            dget per "Total lipid (fat) (g)" 0 * 9 > 0 ∧
          dget per "Energy (kcal)" 0 <
            (dget per "Protein (g)" 0 * 4 + dget per "Carbohydrate, by difference (g)" 0 * 4 +
              dget per "Total lipid (fat) (g)" 0 * 9) * 0.7))) ∧
    (∀ msg, energy_validation name per missing = some msg →
      ∀ m ∈ missing, sContains msg m = true) := by
  unfold energy_validation
  dsimp only
  by_cases h0 : dget per "Energy (kcal)" 0 = 0
  · rw [if_pos h0]
    refine ⟨⟨fun _ => Or.inl h0, fun _ => ?_⟩, ?_⟩
    · by_cases hm : missing ≠ []
      · rw [if_pos hm]; exact fun h => Option.noConfusion h
      · rw [if_neg hm]; exact fun h => Option.noConfusion h
    · intro msg hmsg m hm
      by_cases hmne : missing ≠ []
      · rw [if_pos hmne] at hmsg
        cases Option.some.inj hmsg
        refine sContains_trans (sContains_join_mem ?_) (@sContains_join_sep "\n  - " missing m hm)
        simp
      · rw [if_neg hmne] at hmsg
        rw [not_ne_iff.mp hmne] at hm
        cases hm
  · rw [if_neg h0]
    by_cases hc : dget per "Protein (g)" 0 * 4 + dget per "Carbohydrate, by difference (g)" 0 * 4 +
        dget per "Total lipid (fat) (g)" 0 * 9 > 0 ∧
      dget per "Energy (kcal)" 0 <
        (dget per "Protein (g)" 0 * 4 + dget per "Carbohydrate, by difference (g)" 0 * 4 +
          dget per "Total lipid (fat) (g)" 0 * 9) * 0.7
    · rw [if_pos hc]
      refine ⟨⟨fun _ => Or.inr hc, fun _ => ?_⟩, ?_⟩
      · by_cases hm : missing ≠ []
        · rw [if_pos hm]; exact fun h => Option.noConfusion h
        · rw [if_neg hm]; exact fun h => Option.noConfusion h
      · intro msg hmsg m hm
        by_cases hmne : missing ≠ []
        · rw [if_pos hmne] at hmsg
          cases Option.some.inj hmsg
          refine sContains_trans (sContains_join_mem ?_) (@sContains_join_sep "\n  - " missing m hm)
          simp
        · rw [if_neg hmne] at hmsg
          rw [not_ne_iff.mp hmne] at hm
          cases hm
    · rw [if_neg hc]
      exact ⟨⟨fun h => absurd rfl h, fun h => absurd h (not_or.mpr ⟨h0, hc⟩)⟩,
        fun msg hmsg => Option.noConfusion hmsg⟩

/-- C1 (corrected): after a successful aggregation, the recipe recomputation
fails exactly when per-serving Energy (kcal) is 0 — even when
calories_from_macros is also 0, contrary to the claim — or when
calories_from_macros > 0 and Energy (kcal) < 0.7 * calories_from_macros; and
every failure message contains the name of every ingredient lacking a usable
energy entry. -/
theorem claimC1_energy_validation (name : String) (recipe : Recipe) (db : IngredientDB)
    (total : NutrientSet)
    (hcalc : calculate_recipe_nutrition recipe db = .ok total) :
    ((update_recipe_nutrition name recipe db).2 ≠ none ↔
      (dget (total.map (fun p => (p.1, p.2 / effective_serving_size recipe)))
          "Energy (kcal)" 0 = 0 ∨
        (dget (total.map (fun p => (p.1, p.2 / effective_serving_size recipe)))
              "Protein (g)" 0 * 4 +
            dget (total.map (fun p => (p.1, p.2 / effective_serving_size recipe)))
              "Carbohydrate, by difference (g)" 0 * 4 +
            dget (total.map (fun p => (p.1, p.2 / effective_serving_size recipe)))
              "Total lipid (fat) (g)" 0 * 9 > 0 ∧
          dget (total.map (fun p => (p.1, p.2 / effective_serving_size recipe)))
              "Energy (kcal)" 0 <
            (dget (total.map (fun p => (p.1, p.2 / effective_serving_size recipe)))
                "Protein (g)" 0 * 4 +
              dget (total.map (fun p => (p.1, p.2 / effective_serving_size recipe)))
                "Carbohydrate, by difference (g)" 0 * 4 +
              dget (total.map (fun p => (p.1, p.2 / effective_serving_size recipe)))
                "Total lipid (fat) (g)" 0 * 9) * 0.7))) ∧
    (∀ msg, (update_recipe_nutrition name recipe db).2 = some msg →
      ∀ m ∈ missing_energy_ingredients recipe db, sContains msg m = true) := by
  rw [update_recipe_nutrition_eq, hcalc]
  dsimp only
  obtain ⟨hiff, hmsgs⟩ := energy_validation_spec name
    (total.map (fun p => (p.1, p.2 / effective_serving_size recipe)))
    (missing_energy_ingredients recipe db)
  rcases hval : energy_validation name
      (total.map (fun p => (p.1, p.2 / effective_serving_size recipe)))
      (missing_energy_ingredients recipe db) with _ | e
  · rw [hval]
    rw [hval] at hiff
    exact ⟨hiff, fun msg hmsg => Option.noConfusion hmsg⟩
  · rw [hval]
    rw [hval] at hiff
    exact ⟨hiff, fun msg hmsg => hmsgs msg (hval.trans hmsg)⟩

/-- C1 (counterexample): a recipe whose single ingredient has no nutrient rows
aggregates successfully to an empty NutrientSet with Energy (kcal) = 0 and
calories_from_macros = 0; the claim says this recipe does not fail, but the
recomputation does fail. -/
theorem claimC1_counterexample :
    calculate_recipe_nutrition sample_recipe sample_db_no_nutrients = .ok [] ∧
    dget (([] : NutrientSet).map
      (fun p => (p.1, p.2 / effective_serving_size sample_recipe))) "Energy (kcal)" 0 = 0 ∧
    dget (([] : NutrientSet).map
        (fun p => (p.1, p.2 / effective_serving_size sample_recipe))) "Protein (g)" 0 * 4 +
      dget (([] : NutrientSet).map
        (fun p => (p.1, p.2 / effective_serving_size sample_recipe)))
        "Carbohydrate, by difference (g)" 0 * 4 +
      dget (([] : NutrientSet).map
        (fun p => (p.1, p.2 / effective_serving_size sample_recipe)))
        "Total lipid (fat) (g)" 0 * 9 = 0 ∧
    (update_recipe_nutrition "recipe.json" sample_recipe sample_db_no_nutrients).2 ≠ none := by
  refine ⟨by decide, rfl, by norm_num [dget], by decide⟩

/-- C1 (witness): the corrected characterization applied to the concrete
empty-nutrients recipe. -/
theorem claimC1_witness :
    calculate_recipe_nutrition sample_recipe sample_db_no_nutrients = .ok ([] : NutrientSet) ∧
    (update_recipe_nutrition "recipe.json" sample_recipe sample_db_no_nutrients).2 ≠ none :=
  ⟨by decide,
   ((claimC1_energy_validation "recipe.json" sample_recipe sample_db_no_nutrients []
      (by decide)).1).mpr (Or.inl rfl)⟩

/-! ## Claim C10 -/

theorem scale_foldl_mem (s : ℚ) :
    ∀ (facts : List (String × JVal)) (init : NutrientSet) (kv : String × ℚ),
      kv ∈ facts.foldl
        (fun scaled p =>
          match p.2 with
          | .num a => dset scaled p.1 (a * s)
          | .str _ => scaled) init →
      kv ∈ init ∨ ∃ q : ℚ, (kv.1, JVal.num q) ∈ facts ∧ kv.2 = q * s := by
  intro facts
  induction facts with
  | nil =>
    intro init kv h
    exact Or.inl h
  | cons p rest ih =>
    obtain ⟨k, v⟩ := p
    intro init kv h
    rw [List.foldl_cons] at h
    rcases v with a | t
    · rcases ih _ kv h with hin | ⟨q, hq, he⟩
      · rcases mem_dset init k (a * s) kv hin with h1 | h2
        · exact Or.inl h1
        · refine Or.inr ⟨a, ?_, by rw [h2]⟩
          rw [h2]
          exact List.mem_cons_self _ _
      · exact Or.inr ⟨q, List.mem_cons_of_mem _ hq, he⟩
    · rcases ih _ kv h with hin | ⟨q, hq, he⟩
      · exact Or.inl hin
      · exact Or.inr ⟨q, List.mem_cons_of_mem _ hq, he⟩

/-- C10: an absent servings field is treated as 1.0 (the entry computes
exactly as if servings were present and equal to 1); the
servings-must-be-positive error is raised precisely for a present string
value or a present numeric value that is not greater than 0, while a present
positive numeric value proceeds to the recipe lookup; and for positive
servings the scaling never fails — every output entry comes from a numeric
nutrient amount of the stored recipe multiplied by the servings, with
non-numeric amounts skipped. -/
theorem claimC10_servings :
    (∀ (rdb : RecipeDB) (entry : MealRecipeEntry), entry.servings = none →
      meal_entry_nutrients rdb entry =
        meal_entry_nutrients rdb { entry with servings := some (JVal.num 1) }) ∧
    (∀ (rdb : RecipeDB) (entry : MealRecipeEntry) (rname : String) (s : String),
      entry.recipe = some rname → rname ≠ "" → entry.servings = some (JVal.str s) →
      meal_entry_nutrients rdb entry =
        .error ("Invalid servings " ++ s ++ " for recipe " ++ rname ++
          ". Servings must be a positive number.")) ∧
    (∀ (rdb : RecipeDB) (entry : MealRecipeEntry) (rname : String) (sv : ℚ),
      entry.recipe = some rname → rname ≠ "" → entry.servings = some (JVal.num sv) →
      sv ≤ 0 →
      meal_entry_nutrients rdb entry =
        .error ("Invalid servings " ++ toString sv ++ " for recipe " ++ rname ++
          ". Servings must be a positive number.")) ∧
    (∀ (rdb : RecipeDB) (entry : MealRecipeEntry) (rname : String) (sv : ℚ) (rd : RecipeData),
      entry.recipe = some rname → rname ≠ "" → entry.servings = some (JVal.num sv) →
      0 < sv → recipe_lookup rdb rname = some rd →
      meal_entry_nutrients rdb entry = calculate_recipe_nutrients rd sv) ∧
    (∀ (rd : RecipeData) (s : ℚ), 0 < s →
      ∃ ns, calculate_recipe_nutrients rd s = .ok ns ∧
        ∀ kv ∈ ns, ∃ q : ℚ,
          (kv.1, JVal.num q) ∈ rd.nutrition_facts.getD [] ∧ kv.2 = q * s) := by
  refine ⟨?_, ?_, ?_, ?_, ?_⟩
  · intro rdb entry h
    unfold meal_entry_nutrients
    rw [h]
    rfl
  · intro rdb entry rname s hr hne hs
    unfold meal_entry_nutrients
    rw [hs, hr]
    dsimp only
    rw [if_neg hne, Option.getD_some]
  · intro rdb entry rname sv hr hne hs hle
    unfold meal_entry_nutrients
    rw [hs, hr]
    dsimp only
    rw [if_neg hne, Option.getD_some]
    dsimp only
    rw [if_pos hle]
  · intro rdb entry rname sv rd hr hne hs hpos hlook
    unfold meal_entry_nutrients
    rw [hs, hr]
    dsimp only
    rw [if_neg hne, Option.getD_some]
    dsimp only
    rw [if_neg (not_le.mpr hpos), hlook]
  · intro rd s hs
    unfold calculate_recipe_nutrients
    rw [if_neg (not_le.mpr hs)]
    rcases hnf : rd.nutrition_facts with _ | facts
    · exact ⟨[], rfl, fun kv hkv => absurd hkv (List.not_mem_nil kv)⟩
    · refine ⟨_, rfl, fun kv hkv => ?_⟩
      rcases scale_foldl_mem s facts [] kv hkv with hin | ⟨q, hq, he⟩
      · cases hin
      · exact ⟨q, hq, he⟩

/-- C10 (witness): the default applied to a concrete one-recipe database, and
the scaling guarantee at servings = 2. -/
theorem claimC10_witness :
    (meal_entry_nutrients sample_meal_rdb { recipe := some "soup", servings := none } =
      meal_entry_nutrients sample_meal_rdb
        { recipe := some "soup", servings := some (JVal.num 1) }) ∧
    (∃ ns, calculate_recipe_nutrients sample_soup_data 2 = .ok ns ∧
      ∀ kv ∈ ns, ∃ q : ℚ,
        (kv.1, JVal.num q) ∈ sample_soup_data.nutrition_facts.getD [] ∧ kv.2 = q * 2) :=
  ⟨claimC10_servings.1 sample_meal_rdb _ rfl,
   claimC10_servings.2.2.2.2 sample_soup_data 2 (by norm_num)⟩
